import Mathlib

/-!
# WheelOfFortune: a shallow embedding of `src/main.cpp`

The controller is one Arduino sketch for an ESP32 board.  Its globals become the
fields of `State`, every C function becomes a Lean function from `State` to
`State`, and the three inputs the sketch reads from its environment
(`millis()`, `digitalRead(BUTTON_PIN)`, `random(7000, 15000)`) become explicit
arguments.

Machine integers: on the target `unsigned long` and `uint` are 32 bits wide and
`uint8_t` is 8 bits wide.  They are modelled as `Nat` with an explicit
`% WORD` (`WORD = 2^32`) or `% BYTE` (`BYTE = 2^8`) wherever the C code performs
arithmetic or narrows a value.

The two `WS2812FX` driver objects (`wheel`, `button`) are external.  Every call
the sketch makes on them is recorded, in program order, in `State.driverLog`.
The indicator light (`indicator`) and the wheel's pixel buffer (`pixelBuffer`)
are views computed from that record.

A run of the control loop is a list of `Call`s applied to the state after
`setup` (`runCalls`); properties of all reachable states are proved by induction
over that list.
-/

namespace WheelOfFortune

/-! ## Constants -/

/-- Number of values of a 32-bit `unsigned long` / `uint`. -/
def WORD : Nat := 4294967296

/-- Number of values of a `uint8_t`. -/
def BYTE : Nat := 256

def WHEEL_NUM_LEDS : Nat := 512
def WHEEL_NUM_SEGMENTS : Nat := 8
def WHEEL_LEDS_PER_SEGMENT : Nat := 64
def WHEEL_DATA_PIN : Nat := 13
def BUTTON_LED_DATA_PIN : Nat := 14
def BUTTON_LED_NUM_LEDS : Nat := 1
def MAX_SPINNING_TIME : Nat := 15
def MIN_SPINNING_TIME : Nat := 5
def COOLDOWN_AFTER_SPINNING : Nat := 10
def BUTTON_PIN : Nat := 27
def BUTTON_DEBOUNCE : Nat := 500

/-! ## Data model -/

inductive DeviceMode where
  | INITIAL
  | IDLE
  | SPINNING
  | COOLDOWN
deriving DecidableEq

structure segmentConfig where
  startLed : Nat
  stopLed : Nat
deriving DecidableEq

/-- The colour constants of `WS2812FX.h` the sketch uses, kept symbolic. -/
inductive Color where
  | BLACK
  | GREEN
  | RED
deriving DecidableEq

/-- The animation presets of `WS2812FX.h` the sketch uses, kept symbolic. -/
inductive FxMode where
  | FX_MODE_STATIC
  | FX_MODE_BLINK
  | FX_MODE_BREATH
  | FX_MODE_RAINBOW_CYCLE
deriving DecidableEq

/-- Result of `digitalRead`. -/
inductive PinLevel where
  | LOW
  | HIGH
deriving DecidableEq

/-- The objects the sketch issues calls on: the two `WS2812FX` strips and the
board itself (`Serial.begin`, `pinMode`). -/
inductive Device where
  | wheel
  | button
  | board
deriving DecidableEq

/-- One call on a device, with the arguments as the sketch passes them.
`show_` stands for `WS2812FX::show()`. -/
inductive Cmd where
  | init
  | setBrightness (b : Nat)
  | setColor (c : Color)
  | start
  | service
  | setPixelColor (i : Nat) (c : Color)
  | show_
  | resetSegments
  | setSegment (n start stop : Nat) (mode : FxMode) (color : Color) (speed : Nat)
  | setMode (m : FxMode)
  | setSpeed (n : Nat)
  | serialBegin (baud : Nat)
  | pinModeInputPullup (pin : Nat)
deriving DecidableEq

/-- The globals of the sketch, the record of driver calls issued so far, and one
history variable: `spinStarts` counts the calls of `startSpinning` so far (it is
not a program variable and no function reads it). -/
structure State where
  spinningStopTime : Nat
  spinningDelay : Nat
  lastSegmentSwitch : Nat
  currentActiveSegment : Nat
  cooldownStop : Nat
  nextButtonCheck : Nat
  currentMode : DeviceMode
  driverLog : List (Device × Cmd)
  spinStarts : Nat
deriving DecidableEq

/-- The state at power-on: the static initialisers of lines 21-26, and the
zero-initialised global `currentMode` (`INITIAL` is enumerator 0). -/
def powerOn : State :=
  { spinningStopTime := 0
    spinningDelay := 100
    lastSegmentSwitch := 0
    currentActiveSegment := 0
    cooldownStop := 0
    nextButtonCheck := 0
    currentMode := DeviceMode.INITIAL
    driverLog := []
    spinStarts := 0 }

/-! ## Machine arithmetic -/

/-- Addition of two 32-bit unsigned values. -/
def addU32 (a b : Nat) : Nat := (a + b) % WORD

/-- Subtraction of two 32-bit unsigned values (wraps below zero). -/
def subU32 (a b : Nat) : Nat := (a % WORD + WORD - b % WORD) % WORD

/-- Record one call on a device. -/
def call (s : State) (d : Device) (c : Cmd) : State :=
  { s with driverLog := s.driverLog ++ [(d, c)] }

/-! ## The functions of the sketch -/

/-- Lines 148-155.  The argument is narrowed to `uint8_t` on entry; the
product is stored in a `uint`, and `startLed + 64 - 1` is `uint` arithmetic. -/
def getSegmentConfig (segmentNumber : Nat) : segmentConfig :=
  let startLed := (segmentNumber % BYTE * WHEEL_LEDS_PER_SEGMENT) % WORD
  { startLed := startLed
    stopLed := subU32 (addU32 startLed WHEEL_LEDS_PER_SEGMENT) 1 }

/-- Position `p` lies in the inclusive range `[startLed, stopLed]`. -/
def segmentConfig.contains (c : segmentConfig) (p : Nat) : Prop :=
  c.startLed ≤ p ∧ p ≤ c.stopLed

instance (c : segmentConfig) (p : Nat) : Decidable (c.contains p) := by
  unfold segmentConfig.contains; infer_instance

/-- The loop of lines 142-145, `for (uint i = startLed; i <= stopLed; i++)`,
with the loop counter `i` and a bound `fuel` on the number of iterations. -/
def setPixelLoop : Nat → Nat → Nat → Color → State → State
  | 0, _, _, _, s => s
  | fuel + 1, i, stopLed, color, s =>
    if i ≤ stopLed then
      setPixelLoop fuel (addU32 i 1) stopLed color
        (call s Device.wheel (Cmd.setPixelColor i color))
    else s

/-- Lines 138-146.  The loop gets `stopLed + 1 - startLed` iterations of fuel,
the number it needs to run to its exit (`setPixelLoop_exact`). -/
def setSegmentToColor (s : State) (segmentNumber : Nat) (color : Color) : State :=
  let config := getSegmentConfig segmentNumber
  setPixelLoop (config.stopLed + 1 - config.startLed) config.startLed config.stopLed color s

/-- Lines 157-168. -/
def setIdleModes (s : State) : State :=
  if s.currentMode = DeviceMode.IDLE then s
  else
    let s := { s with currentMode := DeviceMode.IDLE }
    let s := call s Device.wheel Cmd.resetSegments
    let s := call s Device.wheel
      (Cmd.setSegment 0 0 (WHEEL_NUM_LEDS - 1) FxMode.FX_MODE_RAINBOW_CYCLE Color.BLACK 5000)
    let s := call s Device.button (Cmd.setColor Color.GREEN)
    call s Device.button (Cmd.setMode FxMode.FX_MODE_BREATH)

/-- Lines 170-180. -/
def setSpinningModes (s : State) : State :=
  if s.currentMode = DeviceMode.SPINNING then s
  else
    let s := { s with currentMode := DeviceMode.SPINNING }
    let s := call s Device.wheel (Cmd.setMode FxMode.FX_MODE_STATIC)
    let s := call s Device.button (Cmd.setMode FxMode.FX_MODE_STATIC)
    call s Device.button (Cmd.setColor Color.RED)

/-- Lines 182-194. -/
def setCooldownModes (s : State) : State :=
  if s.currentMode = DeviceMode.COOLDOWN then s
  else
    let s := { s with currentMode := DeviceMode.COOLDOWN }
    let s := call s Device.wheel (Cmd.setSpeed 1000)
    let s := call s Device.wheel (Cmd.setColor Color.GREEN)
    let config := getSegmentConfig s.currentActiveSegment
    call s Device.wheel
      (Cmd.setSegment 0 config.startLed config.stopLed FxMode.FX_MODE_BLINK Color.GREEN 100)

/-- Lines 88-94.  `millis` is the value `millis()` returns, `random` the value
`random(7000, 15000)` returns.  Both sums are `unsigned long` arithmetic. -/
def startSpinning (s : State) (millis random : Nat) : State :=
  let s := { s with spinStarts := s.spinStarts + 1 }
  let s := { s with spinningStopTime := addU32 millis random }
  let s := { s with cooldownStop := addU32 s.spinningStopTime (COOLDOWN_AFTER_SPINNING * 1000) }
  let s := { s with spinningDelay := 100 }
  setSpinningModes s

/-- Lines 126-128: the new value of the `uint8_t currentActiveSegment`. -/
def nextSegment (currentActiveSegment : Nat) : Nat :=
  if currentActiveSegment = 7 then 0 else (currentActiveSegment + 1) % BYTE

/-- Lines 129-131: `previousSegment`, computed from the new
`currentActiveSegment`. -/
def previousSegment (currentActiveSegment : Nat) : Nat :=
  if currentActiveSegment = 0 then 7 else currentActiveSegment - 1

/-- Lines 96-136.  `millis` is the value `millis()` returns at line 100. -/
def handleWheelOfFortune (s : State) (millis : Nat) : State :=
  if s.currentMode ≠ DeviceMode.SPINNING ∧ s.currentMode ≠ DeviceMode.COOLDOWN then s
  else
    let now := millis
    let spinningStopped : Bool := decide (now ≥ s.spinningStopTime)
    let cooldownActive : Bool := spinningStopped && decide (now ≤ s.cooldownStop)
    if spinningStopped then
      if cooldownActive then setCooldownModes s
      else setIdleModes s
    else
      let nextSpinningCycleNeeded : Bool :=
        decide (subU32 now s.lastSegmentSwitch > s.spinningDelay)
      if !nextSpinningCycleNeeded then s
      else
        let s := { s with lastSegmentSwitch := now }
        let s := { s with spinningDelay := addU32 s.spinningDelay 10 }
        let s := { s with currentActiveSegment := nextSegment s.currentActiveSegment }
        let previous := previousSegment s.currentActiveSegment
        let s := setSegmentToColor s previous Color.BLACK
        let s := setSegmentToColor s s.currentActiveSegment Color.GREEN
        call s Device.wheel Cmd.show_

/-- Lines 78-86.  `millis` is the value `millis()` returns at line 80,
`digitalRead` the level read from `BUTTON_PIN`; `millisStart` and `random` are
what `startSpinning` reads when it is called. -/
def checkButton (s : State) (millis : Nat) (digitalRead : PinLevel)
    (millisStart random : Nat) : State :=
  let now := millis
  if now ≥ s.nextButtonCheck ∧ digitalRead = PinLevel.LOW then
    let s := { s with nextButtonCheck := addU32 now BUTTON_DEBOUNCE }
    startSpinning s millisStart random
  else s

/-- Lines 53-68. -/
def setup (s : State) : State :=
  let s := call s Device.board (Cmd.serialBegin 115200)
  let s := call s Device.wheel Cmd.init
  let s := call s Device.wheel (Cmd.setBrightness 80)
  let s := call s Device.wheel (Cmd.setColor Color.BLACK)
  let s := call s Device.button Cmd.init
  let s := setIdleModes s
  let s := call s Device.wheel Cmd.start
  let s := call s Device.button Cmd.start
  call s Device.board (Cmd.pinModeInputPullup BUTTON_PIN)

/-- What one pass of `loop` reads from its environment. -/
structure LoopInput where
  millisButton : Nat
  digitalRead : PinLevel
  millisStart : Nat
  random : Nat
  millisWheel : Nat

/-- Lines 70-76. -/
def loop (s : State) (i : LoopInput) : State :=
  let s := checkButton s i.millisButton i.digitalRead i.millisStart i.random
  let s := handleWheelOfFortune s i.millisWheel
  let s := call s Device.wheel Cmd.service
  call s Device.button Cmd.service

/-! ## Definitions used to state the properties -/

/-- The calls `setSegmentToColor` issues for the `n` positions from `i` on. -/
def pixelCalls (i n : Nat) (color : Color) : List (Device × Cmd) :=
  (List.range' i n).map (fun p => (Device.wheel, Cmd.setPixelColor p color))

/-- The spec's scenario: after `setup`, a spin starts at clock value 0 with a
duration draw of 7000. -/
def spin7000 : State := startSpinning (setup powerOn) 0 7000

/-- A spin that starts 7296 ms before the clock rolls over, with a draw of 7000:
`spinningStopTime` is 4294967000, `cooldownStop` has wrapped to 9704. -/
def spinNearRollover : State := startSpinning (setup powerOn) 4294960000 7000

/-- The scenario state with the wheel on its last segment. -/
def spin7000AtSegment7 : State := { spin7000 with currentActiveSegment := 7 }

/-- Number of `wheel.show()` calls recorded so far.  The sketch calls `show()`
only at line 135, at the end of a segment advance, so this is the number of
segment advances performed so far. -/
def advances (s : State) : Nat := s.driverLog.count (Device.wheel, Cmd.show_)

/-- Successive calls of `handleWheelOfFortune`, one per clock value read. -/
def runTicks (s : State) (ticks : List Nat) : State := ticks.foldl handleWheelOfFortune s

/-- The state of a run that starts with `startSpinning` (clock value `T`, draw
`D`) and continues with the ticks `ticks` of `handleWheelOfFortune`. -/
def spinRun (s : State) (T D : Nat) (ticks : List Nat) : State :=
  runTicks (startSpinning s T D) ticks

/-- Number of segment advances performed in `spinRun` since the spin started. -/
def advanceCount (s : State) (T D : Nat) (ticks : List Nat) : Nat :=
  advances (spinRun s T D ticks) - advances (startSpinning s T D)

/-- The value `millis()` returns `t` milliseconds after boot: the 32-bit
millisecond counter wraps to 0 after `WORD` milliseconds. -/
def clockAt (t : Nat) : Nat := t % WORD

/-- One poll of the button with the line held LOW, `t` milliseconds after boot;
`d` is the duration draw `startSpinning` gets if it is called. -/
def pollLow (s : State) (t d : Nat) : State :=
  checkButton s (clockAt t) PinLevel.LOW (clockAt t) d

/-- The state after polling the held-LOW button at the times `t0 + 10 * k`, for
the tick numbers `k` of `ks` in order. -/
def heldLowRun (draw : Nat → Nat) (t0 : Nat) : List Nat → State → State
  | [], s => s
  | k :: ks, s => heldLowRun draw t0 ks (pollLow s (t0 + 10 * k) (draw k))

/-- The tick numbers of `ks` at which `checkButton` called `startSpinning`
(`spinStarts` went up), polling as in `heldLowRun`. -/
def heldLowFires (draw : Nat → Nat) (t0 : Nat) : List Nat → State → List Nat
  | [], _ => []
  | k :: ks, s =>
    if (pollLow s (t0 + 10 * k) (draw k)).spinStarts = s.spinStarts then
      heldLowFires draw t0 ks (pollLow s (t0 + 10 * k) (draw k))
    else
      k :: heldLowFires draw t0 ks (pollLow s (t0 + 10 * k) (draw k))

/-! ## Runs of the control loop -/

/-- One call the control loop makes on the controller, with the values the call
reads: `button` is `checkButton` (the clock value of line 80, the level of the
button line, and the clock value and duration draw `startSpinning` reads if it
is called), `wheel` is `handleWheelOfFortune` (the clock value of line 100). -/
inductive Call where
  | button (millis : Nat) (digitalRead : PinLevel) (millisStart random : Nat)
  | wheel (millis : Nat)
deriving DecidableEq

/-- Perform one call. -/
def applyCall (s : State) : Call → State
  | Call.button m pin ms d => checkButton s m pin ms d
  | Call.wheel m => handleWheelOfFortune s m

/-- Perform a sequence of calls, first to last. -/
def runCalls (s : State) : List Call → State
  | [] => s
  | c :: cs => runCalls (applyCall s c) cs

/-- The clock values a sequence of calls reads, in the order they are read. -/
def clockReads : List Call → List Nat
  | [] => []
  | Call.button m _ ms _ :: cs => m :: ms :: clockReads cs
  | Call.wheel m :: cs => m :: clockReads cs

/-- The state reached after `setup` by `checkButton` at clock value 4294960000
(line LOW, draw 7000) and one tick of `handleWheelOfFortune` at 4294966990, 306
ms before the counter rolls over: the spin has made its first segment advance,
`lastSegmentSwitch` is 4294966990 and `spinningDelay` is 110. -/
def spinAcrossRollover : State :=
  runCalls (setup powerOn)
    [Call.button 4294960000 PinLevel.LOW 4294960000 7000, Call.wheel 4294966990]

/-! ## Views of the driver record -/

/-- The light positions a driver call names are on the strip: a pixel index, or
both bounds of a sub-range, below `WHEEL_NUM_LEDS`. -/
def Cmd.inRange : Cmd → Prop
  | Cmd.setPixelColor i _ => i < WHEEL_NUM_LEDS
  | Cmd.setSegment _ first last _ _ _ => first < WHEEL_NUM_LEDS ∧ last < WHEEL_NUM_LEDS
  | _ => True

/-- The indicator after one more recorded call: `button.setColor` replaces the
colour, `button.setMode` the animation mode, every other call leaves both. -/
def setIndicator (ind : Option Color × Option FxMode) (e : Device × Cmd) :
    Option Color × Option FxMode :=
  match e with
  | (Device.button, Cmd.setColor c) => (some c, ind.2)
  | (Device.button, Cmd.setMode m) => (ind.1, some m)
  | _ => ind

/-- The indicator light as the (colour, animation mode) pair last set through
`button.setColor` / `button.setMode`; `none` while never set. -/
def indicator (log : List (Device × Cmd)) : Option Color × Option FxMode :=
  log.foldl setIndicator (none, none)

/-- The pixel buffer after one more recorded call: `wheel.setPixelColor(i, c)`
writes colour `c` at position `i`, every other call leaves the buffer. -/
def writePixel (buf : Nat → Color) (e : Device × Cmd) : Nat → Color :=
  match e with
  | (Device.wheel, Cmd.setPixelColor i c) => fun p => if p = i then c else buf p
  | _ => buf

/-- The wheel's pixel buffer as the colours written by `setPixelColor`, starting
all off (BLACK). -/
def pixelBuffer (log : List (Device × Cmd)) : Nat → Color :=
  log.foldl writePixel (fun _ => Color.BLACK)

/-- Position `p` belongs to segment `c`. -/
def inSegment (c p : Nat) : Prop := 64 * c ≤ p ∧ p ≤ 64 * c + 63

instance (c p : Nat) : Decidable (inSegment c p) := by
  unfold inSegment; infer_instance

/-- Least clock time between the first and the `k`-th segment advance of one
spin: advance `j + 1` comes more than `100 + 10 * j` ms after advance `j`. -/
def minElapsed : Nat → Nat
  | 0 => 0
  | 1 => 0
  | k + 2 => minElapsed (k + 1) + (100 + 10 * (k + 1)) + 1

/-- The clock values at which the 46 advances of the fastest spin that starts
at clock value 1000 happen: the first at 1000, advance `j + 1` exactly
`100 + 10 * j + 1` ms after advance `j`. -/
def fastestTicks : List Nat := (List.range 46).map (fun j => 1000 + minElapsed (j + 1))


/-- Clock values that fall by one from tick to tick, `n` of them from 4294967294
down: each is `2^32 - 1` ms after the one before in 32-bit unsigned arithmetic. -/
def descendingTicks (n : Nat) : List Nat := (List.range n).map (fun j => 4294967294 - j)

/-! ## Helper lemmas -/

theorem getSegmentConfig_eq (c : Nat) :
    getSegmentConfig c = { startLed := c % 256 * 64, stopLed := c % 256 * 64 + 63 } := by
  simp only [getSegmentConfig, addU32, subU32, WORD, BYTE, WHEEL_LEDS_PER_SEGMENT,
    segmentConfig.mk.injEq]
  constructor <;> omega

/-- The loop runs to its exit whenever it has at least `n` iterations of fuel
for the `n` positions `i .. stopLed`, and issues one `setPixelColor` each. -/
theorem setPixelLoop_exact (n : Nat) : ∀ (fuel i stopLed : Nat) (color : Color) (s : State),
    i + n = stopLed + 1 → stopLed + 1 < WORD → n ≤ fuel →
    setPixelLoop fuel i stopLed color s
      = { s with driverLog := s.driverLog ++ pixelCalls i n color } := by
  induction n with
  | zero =>
    intro fuel i stopLed color s h _ _
    cases fuel with
    | zero => simp [setPixelLoop, pixelCalls]
    | succ f =>
      have : ¬ i ≤ stopLed := by omega
      simp [setPixelLoop, pixelCalls, this]
  | succ n ih =>
    intro fuel i stopLed color s h hw hf
    cases fuel with
    | zero => omega
    | succ f =>
      have hi : i ≤ stopLed := by omega
      have ha : addU32 i 1 = i + 1 := by
        unfold addU32; unfold WORD at *; omega
      rw [setPixelLoop, if_pos hi, ha, ih f (i + 1) stopLed color _ (by omega) hw (by omega)]
      simp [call, pixelCalls, List.range'_succ]

theorem setSegmentToColor_log (s : State) (c : Nat) (color : Color) :
    setSegmentToColor s c color
      = { s with driverLog := s.driverLog ++ pixelCalls (c % 256 * 64) 64 color } := by
  unfold setSegmentToColor
  rw [getSegmentConfig_eq]
  simp only
  have h : c % 256 * 64 + 63 + 1 - c % 256 * 64 = 64 := by omega
  rw [h]
  have h1 : c % 256 * 64 + 64 = c % 256 * 64 + 63 + 1 := by omega
  have h2 : c % 256 * 64 + 63 + 1 < WORD := by unfold WORD; omega
  exact setPixelLoop_exact 64 64 (c % 256 * 64) (c % 256 * 64 + 63) color s h1 h2
    (Nat.le_refl 64)

theorem setCooldownModes_mode (s : State) :
    (setCooldownModes s).currentMode = DeviceMode.COOLDOWN := by
  unfold setCooldownModes
  by_cases h : s.currentMode = DeviceMode.COOLDOWN <;> simp [h, call]

theorem setIdleModes_mode (s : State) : (setIdleModes s).currentMode = DeviceMode.IDLE := by
  unfold setIdleModes
  by_cases h : s.currentMode = DeviceMode.IDLE <;> simp [h, call]

theorem setSpinningModes_mode (s : State) :
    (setSpinningModes s).currentMode = DeviceMode.SPINNING := by
  unfold setSpinningModes
  by_cases h : s.currentMode = DeviceMode.SPINNING <;> simp [h, call]

theorem setIdleModes_spinningDelay (s : State) :
    (setIdleModes s).spinningDelay = s.spinningDelay := by
  unfold setIdleModes
  by_cases h : s.currentMode = DeviceMode.IDLE <;> simp [h, call]

theorem setCooldownModes_spinningDelay (s : State) :
    (setCooldownModes s).spinningDelay = s.spinningDelay := by
  unfold setCooldownModes
  by_cases h : s.currentMode = DeviceMode.COOLDOWN <;> simp [h, call]

theorem startSpinning_delay (s : State) (T D : Nat) :
    (startSpinning s T D).spinningDelay = 100 := by
  unfold startSpinning setSpinningModes
  by_cases h : s.currentMode = DeviceMode.SPINNING <;> simp [h, call]

theorem startSpinning_spinStarts (s : State) (T D : Nat) :
    (startSpinning s T D).spinStarts = s.spinStarts + 1 := by
  unfold startSpinning setSpinningModes
  by_cases h : s.currentMode = DeviceMode.SPINNING <;> simp [h, call]

theorem startSpinning_nextButtonCheck (s : State) (T D : Nat) :
    (startSpinning s T D).nextButtonCheck = s.nextButtonCheck := by
  unfold startSpinning setSpinningModes
  by_cases h : s.currentMode = DeviceMode.SPINNING <;> simp [h, call]

/-! ### The five cases of `handleWheelOfFortune` -/

theorem handle_inactive (s : State) (now : Nat)
    (hm : s.currentMode ≠ DeviceMode.SPINNING ∧ s.currentMode ≠ DeviceMode.COOLDOWN) :
    handleWheelOfFortune s now = s := by
  unfold handleWheelOfFortune
  rw [if_pos hm]

theorem handle_stopped_cooldown (s : State) (now : Nat)
    (hm : s.currentMode = DeviceMode.SPINNING ∨ s.currentMode = DeviceMode.COOLDOWN)
    (h1 : s.spinningStopTime ≤ now) (h2 : now ≤ s.cooldownStop) :
    handleWheelOfFortune s now = setCooldownModes s := by
  have hn : ¬ (s.currentMode ≠ DeviceMode.SPINNING ∧
      s.currentMode ≠ DeviceMode.COOLDOWN) := by
    rcases hm with h | h <;> simp [h]
  unfold handleWheelOfFortune
  rw [if_neg hn]
  simp [h1, h2]

theorem handle_stopped_idle (s : State) (now : Nat)
    (hm : s.currentMode = DeviceMode.SPINNING ∨ s.currentMode = DeviceMode.COOLDOWN)
    (h1 : s.spinningStopTime ≤ now) (h2 : s.cooldownStop < now) :
    handleWheelOfFortune s now = setIdleModes s := by
  have hn : ¬ (s.currentMode ≠ DeviceMode.SPINNING ∧
      s.currentMode ≠ DeviceMode.COOLDOWN) := by
    rcases hm with h | h <;> simp [h]
  have h3 : ¬ now ≤ s.cooldownStop := by omega
  unfold handleWheelOfFortune
  rw [if_neg hn]
  simp [h1, h3]

theorem handle_gate (s : State) (now : Nat)
    (hm : s.currentMode = DeviceMode.SPINNING ∨ s.currentMode = DeviceMode.COOLDOWN)
    (h1 : now < s.spinningStopTime) (h2 : subU32 now s.lastSegmentSwitch ≤ s.spinningDelay) :
    handleWheelOfFortune s now = s := by
  have hn : ¬ (s.currentMode ≠ DeviceMode.SPINNING ∧
      s.currentMode ≠ DeviceMode.COOLDOWN) := by
    rcases hm with h | h <;> simp [h]
  have h3 : ¬ s.spinningStopTime ≤ now := by omega
  have h4 : ¬ s.spinningDelay < subU32 now s.lastSegmentSwitch := by omega
  unfold handleWheelOfFortune
  rw [if_neg hn]
  simp [h3, h4]

theorem handle_advance (s : State) (now : Nat)
    (hm : s.currentMode = DeviceMode.SPINNING ∨ s.currentMode = DeviceMode.COOLDOWN)
    (h1 : now < s.spinningStopTime) (h2 : s.spinningDelay < subU32 now s.lastSegmentSwitch) :
    handleWheelOfFortune s now =
      { s with
        lastSegmentSwitch := now
        spinningDelay := addU32 s.spinningDelay 10
        currentActiveSegment := nextSegment s.currentActiveSegment
        driverLog := s.driverLog
          ++ pixelCalls (previousSegment (nextSegment s.currentActiveSegment) % 256 * 64) 64
              Color.BLACK
          ++ pixelCalls (nextSegment s.currentActiveSegment % 256 * 64) 64 Color.GREEN
          ++ [(Device.wheel, Cmd.show_)] } := by
  have hn : ¬ (s.currentMode ≠ DeviceMode.SPINNING ∧
      s.currentMode ≠ DeviceMode.COOLDOWN) := by
    rcases hm with h | h <;> simp [h]
  have h3 : ¬ s.spinningStopTime ≤ now := by omega
  unfold handleWheelOfFortune
  rw [if_neg hn]
  simp [h3, h2, setSegmentToColor_log, call]

/-! ### The two cases of `checkButton` -/

theorem checkButton_fire (s : State) (now : Nat) (pin : PinLevel) (T D : Nat)
    (h : s.nextButtonCheck ≤ now ∧ pin = PinLevel.LOW) :
    checkButton s now pin T D
      = startSpinning { s with nextButtonCheck := (now + 500) % 4294967296 } T D := by
  unfold checkButton
  simp only [ge_iff_le]
  rw [if_pos h]
  rfl

theorem checkButton_skip (s : State) (now : Nat) (pin : PinLevel) (T D : Nat)
    (h : ¬ (s.nextButtonCheck ≤ now ∧ pin = PinLevel.LOW)) :
    checkButton s now pin T D = s := by
  unfold checkButton
  simp only [ge_iff_le]
  rw [if_neg h]

/-! ### Counting segment advances along a run -/

theorem count_show_pixelCalls (i n : Nat) (c : Color) :
    (pixelCalls i n c).count (Device.wheel, Cmd.show_) = 0 := by
  rw [List.count_eq_zero]
  simp [pixelCalls]

theorem advances_setIdleModes (s : State) : advances (setIdleModes s) = advances s := by
  unfold setIdleModes advances
  by_cases h : s.currentMode = DeviceMode.IDLE <;> simp [h, call, List.count_cons]

theorem advances_setCooldownModes (s : State) :
    advances (setCooldownModes s) = advances s := by
  unfold setCooldownModes advances
  by_cases h : s.currentMode = DeviceMode.COOLDOWN <;> simp [h, call, List.count_cons]

/-- One tick either leaves `spinningDelay` and the number of advances as they
were, or performs one advance, which the pacing gate allowed. -/
theorem handle_tick_cases (s : State) (now : Nat) :
    (advances (handleWheelOfFortune s now) = advances s ∧
      (handleWheelOfFortune s now).spinningDelay = s.spinningDelay) ∨
    (advances (handleWheelOfFortune s now) = advances s + 1 ∧
      s.spinningDelay < subU32 now s.lastSegmentSwitch ∧
      (handleWheelOfFortune s now).spinningDelay = (s.spinningDelay + 10) % 4294967296) := by
  by_cases hm : s.currentMode = DeviceMode.SPINNING ∨ s.currentMode = DeviceMode.COOLDOWN
  · by_cases h1 : now < s.spinningStopTime
    · by_cases h2 : s.spinningDelay < subU32 now s.lastSegmentSwitch
      · right
        rw [handle_advance s now hm h1 h2]
        refine ⟨?_, h2, rfl⟩
        simp [advances, List.count_append, count_show_pixelCalls]
      · left
        rw [handle_gate s now hm h1 (by omega)]
        exact ⟨rfl, rfl⟩
    · left
      by_cases h3 : now ≤ s.cooldownStop
      · rw [handle_stopped_cooldown s now hm (by omega) h3]
        exact ⟨advances_setCooldownModes s, setCooldownModes_spinningDelay s⟩
      · rw [handle_stopped_idle s now hm (by omega) (by omega)]
        exact ⟨advances_setIdleModes s, setIdleModes_spinningDelay s⟩
  · left
    have hn : s.currentMode ≠ DeviceMode.SPINNING ∧ s.currentMode ≠ DeviceMode.COOLDOWN := by
      constructor <;> intro h <;> simp [h] at hm
    rw [handle_inactive s now hn]
    exact ⟨rfl, rfl⟩

theorem runTicks_append (s : State) (ticks : List Nat) (now : Nat) :
    runTicks s (ticks ++ [now]) = handleWheelOfFortune (runTicks s ticks) now := by
  simp [runTicks, List.foldl_append]

/-- Along any run of ticks, `spinningDelay` stays 100 plus 10 for every advance
performed since `a0` advances, in `uint` arithmetic. -/
theorem runTicks_delay (a0 : Nat) (ticks : List Nat) : ∀ (st : State),
    (a0 ≤ advances st ∧
      st.spinningDelay = (100 + 10 * (advances st - a0)) % 4294967296) →
    (a0 ≤ advances (runTicks st ticks) ∧
      (runTicks st ticks).spinningDelay
        = (100 + 10 * (advances (runTicks st ticks) - a0)) % 4294967296) := by
  induction ticks with
  | nil => intro st h; exact h
  | cons t ts ih =>
    intro st h
    have hstep : runTicks st (t :: ts) = runTicks (handleWheelOfFortune st t) ts := rfl
    rw [hstep]
    apply ih
    rcases handle_tick_cases st t with ⟨ha, hd⟩ | ⟨ha, _, hd⟩
    · rw [ha, hd]; exact h
    · rw [ha, hd]
      obtain ⟨h1, h2⟩ := h
      refine ⟨by omega, ?_⟩
      rw [h2]
      omega

/-! ### Polling a button that is held down -/

theorem pollLow_fire (s : State) (t d : Nat) (h : s.nextButtonCheck ≤ t)
    (ht : t + 500 < WORD) :
    (pollLow s t d).spinStarts = s.spinStarts + 1 ∧
    (pollLow s t d).nextButtonCheck = t + 500 := by
  have hc : clockAt t = t := by unfold clockAt; unfold WORD at *; omega
  unfold pollLow
  rw [hc, checkButton_fire s t PinLevel.LOW t d ⟨h, rfl⟩, startSpinning_spinStarts,
    startSpinning_nextButtonCheck]
  refine ⟨rfl, ?_⟩
  show (t + 500) % 4294967296 = t + 500
  unfold WORD at ht
  omega

theorem pollLow_skip (s : State) (t d : Nat) (h : t < s.nextButtonCheck) (ht : t < WORD) :
    pollLow s t d = s := by
  have hc : clockAt t = t := by unfold clockAt; unfold WORD at *; omega
  unfold pollLow
  rw [hc]
  exact checkButton_skip s t PinLevel.LOW t d (by omega)

theorem heldLow_skip (draw : Nat → Nat) (t0 : Nat) (ks : List Nat) (s : State)
    (h : ∀ k ∈ ks, t0 + 10 * k < s.nextButtonCheck ∧ t0 + 10 * k < WORD) :
    heldLowFires draw t0 ks s = [] ∧ heldLowRun draw t0 ks s = s := by
  induction ks with
  | nil => exact ⟨rfl, rfl⟩
  | cons k ks ih =>
    have hk := h k (List.mem_cons_self k ks)
    have hs : pollLow s (t0 + 10 * k) (draw k) = s := pollLow_skip s _ _ hk.1 hk.2
    have ih2 := ih (fun j hj => h j (List.mem_cons_of_mem k hj))
    simp only [heldLowFires, heldLowRun, hs, if_true]
    exact ih2

theorem heldLowRun_append (draw : Nat → Nat) (t0 : Nat) (ks1 ks2 : List Nat) :
    ∀ s : State, heldLowRun draw t0 (ks1 ++ ks2) s
      = heldLowRun draw t0 ks2 (heldLowRun draw t0 ks1 s) := by
  induction ks1 with
  | nil => intro s; rfl
  | cons k ks ih => intro s; exact ih (pollLow s (t0 + 10 * k) (draw k))

theorem heldLowFires_append (draw : Nat → Nat) (t0 : Nat) (ks1 ks2 : List Nat) :
    ∀ s : State, heldLowFires draw t0 (ks1 ++ ks2) s
      = heldLowFires draw t0 ks1 s ++ heldLowFires draw t0 ks2 (heldLowRun draw t0 ks1 s) := by
  induction ks1 with
  | nil => intro s; rfl
  | cons k ks ih =>
    intro s
    have e := ih (pollLow s (t0 + 10 * k) (draw k))
    show (if (pollLow s (t0 + 10 * k) (draw k)).spinStarts = s.spinStarts then
        heldLowFires draw t0 (ks ++ ks2) (pollLow s (t0 + 10 * k) (draw k))
      else k :: heldLowFires draw t0 (ks ++ ks2) (pollLow s (t0 + 10 * k) (draw k)))
      = (if (pollLow s (t0 + 10 * k) (draw k)).spinStarts = s.spinStarts then
          heldLowFires draw t0 ks (pollLow s (t0 + 10 * k) (draw k))
        else k :: heldLowFires draw t0 ks (pollLow s (t0 + 10 * k) (draw k)))
        ++ heldLowFires draw t0 ks2 (heldLowRun draw t0 ks (pollLow s (t0 + 10 * k) (draw k)))
    rw [e]
    split <;> rfl

/-- One debounce window: a poll that fires at tick `k`, then 49 polls that do
not. -/
theorem heldLow_window (draw : Nat → Nat) (t0 k : Nat) (s : State)
    (h : s.nextButtonCheck ≤ t0 + 10 * k) (hw : t0 + 10 * k + 500 < WORD) :
    heldLowFires draw t0 (k :: List.range' (k + 1) 49) s = [k] ∧
    (heldLowRun draw t0 (k :: List.range' (k + 1) 49) s).nextButtonCheck
      = t0 + 10 * k + 500 := by
  obtain ⟨f1, f2⟩ := pollLow_fire s (t0 + 10 * k) (draw k) h hw
  have hskip := heldLow_skip draw t0 (List.range' (k + 1) 49)
    (pollLow s (t0 + 10 * k) (draw k)) (by
      intro j hj
      rw [List.mem_range'_1] at hj
      rw [f2]
      omega)
  have hne : ¬ (pollLow s (t0 + 10 * k) (draw k)).spinStarts = s.spinStarts := by omega
  have e1 : heldLowFires draw t0 (k :: List.range' (k + 1) 49) s
      = if (pollLow s (t0 + 10 * k) (draw k)).spinStarts = s.spinStarts then
          heldLowFires draw t0 (List.range' (k + 1) 49) (pollLow s (t0 + 10 * k) (draw k))
        else
          k :: heldLowFires draw t0 (List.range' (k + 1) 49)
            (pollLow s (t0 + 10 * k) (draw k)) := rfl
  have e2 : heldLowRun draw t0 (k :: List.range' (k + 1) 49) s
      = heldLowRun draw t0 (List.range' (k + 1) 49) (pollLow s (t0 + 10 * k) (draw k)) := rfl
  rw [e1, e2, if_neg hne, hskip.1, hskip.2, f2]
  exact ⟨rfl, rfl⟩

/-- Away from the rollover of the millisecond counter the debounce scenario
holds: with the line held LOW over 200 polls 10 ms apart, `startSpinning` is
called at the polls 0, 50, 100 and 150 and at no other. -/
theorem debounce_without_rollover (draw : Nat → Nat) (s : State) (t0 : Nat)
    (h : s.nextButtonCheck ≤ t0) (hw : t0 + 2000 < WORD) :
    heldLowFires draw t0 (List.range 200) s = [0, 50, 100, 150] := by
  have hsplit : List.range 200
      = (0 :: List.range' (0 + 1) 49) ++ ((50 :: List.range' (50 + 1) 49)
        ++ ((100 :: List.range' (100 + 1) 49) ++ (150 :: List.range' (150 + 1) 49))) := by
    set_option maxRecDepth 100000 in rfl
  obtain ⟨a1, b1⟩ := heldLow_window draw t0 0 s (by omega) (by omega)
  obtain ⟨a2, b2⟩ := heldLow_window draw t0 50 _ (by rw [b1]) (by omega)
  obtain ⟨a3, b3⟩ := heldLow_window draw t0 100 _ (by rw [b2]) (by omega)
  obtain ⟨a4, _⟩ := heldLow_window draw t0 150 _ (by rw [b3]) (by omega)
  rw [hsplit, heldLowFires_append, heldLowFires_append, heldLowFires_append, a1, a2, a3, a4]
  rfl

/-! ## Segment layout -/

/-- C1: for every segment index `i` in 0..7, `getSegmentConfig i` is the
inclusive range `[64*i, 64*i + 63]` of exactly 64 positions; the ranges of two
distinct indices share no position; every position `p` in 0..511 lies in the
range of segment `p / 64` and of no other segment; and no range reaches beyond
position 511. -/
theorem getSegmentConfig_partition :
    (∀ i, i < 8 →
      (getSegmentConfig i).startLed = 64 * i ∧ (getSegmentConfig i).stopLed = 64 * i + 63 ∧
      (getSegmentConfig i).stopLed + 1 - (getSegmentConfig i).startLed = 64) ∧
    (∀ i j, i < 8 → j < 8 → i ≠ j → ∀ p,
      ¬ ((getSegmentConfig i).contains p ∧ (getSegmentConfig j).contains p)) ∧
    (∀ p, p < 512 → p / 64 < 8 ∧ (getSegmentConfig (p / 64)).contains p ∧
      ∀ i, i < 8 → ((getSegmentConfig i).contains p ↔ i = p / 64)) ∧
    (∀ i, i < 8 → ∀ p, (getSegmentConfig i).contains p → p < 512) := by
  refine ⟨?_, ?_, ?_, ?_⟩
  · intro i hi
    rw [getSegmentConfig_eq]
    simp only
    omega
  · intro i j hi hj hij p
    rw [getSegmentConfig_eq, getSegmentConfig_eq]
    simp only [segmentConfig.contains]
    omega
  · intro p hp
    refine ⟨by omega, ?_, ?_⟩
    · rw [getSegmentConfig_eq]
      simp only [segmentConfig.contains]
      omega
    · intro i hi
      rw [getSegmentConfig_eq]
      simp only [segmentConfig.contains]
      omega
  · intro i hi p
    rw [getSegmentConfig_eq]
    simp only [segmentConfig.contains]
    omega

/-! ## Starting a spin -/

/-- Counterexample to C2 as stated: after `setup`, a spin that starts at clock
value `T = 4294967295` (the last value before the 32-bit counter rolls over)
with draw `D = 7000` leaves `spinningStopTime = 6999` and `cooldownStop = 16999`,
not `T + D` and `T + D + 10000`. -/
theorem startSpinning_timers_wrap :
    (startSpinning (setup powerOn) 4294967295 7000).spinningStopTime = 6999 ∧
    (startSpinning (setup powerOn) 4294967295 7000).spinningStopTime ≠ 4294967295 + 7000 ∧
    (startSpinning (setup powerOn) 4294967295 7000).cooldownStop = 16999 ∧
    (startSpinning (setup powerOn) 4294967295 7000).cooldownStop ≠ 4294967295 + 7000 + 10000 := by
  decide

/-- C2 (amended): for every prior state, whatever its mode, every clock value
`T` and every draw `D`, `startSpinning` leaves `spinningStopTime = (T + D) mod 2^32`,
`cooldownStop = (T + D + 10000) mod 2^32`, `spinningDelay = 100` and mode
`SPINNING`; the two timers are exactly `T + D` and `T + D + 10000` whenever
`T + D + 10000 < 2^32`. -/
theorem startSpinning_timers (s : State) (T D : Nat) :
    (startSpinning s T D).spinningStopTime = (T + D) % 4294967296 ∧
    (startSpinning s T D).cooldownStop = (T + D + 10000) % 4294967296 ∧
    (startSpinning s T D).spinningDelay = 100 ∧
    (startSpinning s T D).currentMode = DeviceMode.SPINNING ∧
    (T + D + 10000 < 4294967296 →
      (startSpinning s T D).spinningStopTime = T + D ∧
      (startSpinning s T D).cooldownStop = T + D + 10000) := by
  have hs : (startSpinning s T D).spinningStopTime = (T + D) % 4294967296 := by
    unfold startSpinning setSpinningModes
    by_cases h : s.currentMode = DeviceMode.SPINNING <;> simp [h, call, addU32, WORD]
  have hc : (startSpinning s T D).cooldownStop = (T + D + 10000) % 4294967296 := by
    unfold startSpinning setSpinningModes
    by_cases h : s.currentMode = DeviceMode.SPINNING <;>
      simp [h, call, addU32, WORD, COOLDOWN_AFTER_SPINNING]
  refine ⟨hs, hc, ?_, ?_, ?_⟩
  · unfold startSpinning setSpinningModes
    by_cases h : s.currentMode = DeviceMode.SPINNING <;> simp [h, call]
  · unfold startSpinning
    exact setSpinningModes_mode _
  · intro h
    rw [hs, hc]
    omega

/-- The scenario of C2: `T = 0`, `D = 7000` gives `spinningStopTime = 7000` and
`cooldownStop = 17000`, from the idle state after `setup` and again from the
spinning state (a re-trigger). -/
theorem startSpinning_timers_scenario :
    spin7000.spinningStopTime = 7000 ∧ spin7000.cooldownStop = 17000 ∧
    spin7000.spinningDelay = 100 ∧ spin7000.currentMode = DeviceMode.SPINNING ∧
    (startSpinning spin7000 0 7000).spinningStopTime = 7000 ∧
    (startSpinning spin7000 0 7000).cooldownStop = 17000 :=
  ⟨((startSpinning_timers (setup powerOn) 0 7000).2.2.2.2 (by decide)).1,
   ((startSpinning_timers (setup powerOn) 0 7000).2.2.2.2 (by decide)).2,
   (startSpinning_timers (setup powerOn) 0 7000).2.2.1,
   (startSpinning_timers (setup powerOn) 0 7000).2.2.2.1,
   ((startSpinning_timers spin7000 0 7000).2.2.2.2 (by decide)).1,
   ((startSpinning_timers spin7000 0 7000).2.2.2.2 (by decide)).2⟩

/-! ## The per-tick mode decision -/

/-- C3: for every state whose mode is `SPINNING` or `COOLDOWN` and every clock
value `now`, one call of `handleWheelOfFortune` leaves the mode `COOLDOWN` if
`spinningStopTime <= now <= cooldownStop`, leaves it `IDLE` if
`spinningStopTime <= now` and `cooldownStop < now`, and leaves it unchanged if
`now < spinningStopTime`. -/
theorem handleWheelOfFortune_mode_decision (s : State) (now : Nat)
    (hm : s.currentMode = DeviceMode.SPINNING ∨ s.currentMode = DeviceMode.COOLDOWN) :
    (s.spinningStopTime ≤ now ∧ now ≤ s.cooldownStop →
      (handleWheelOfFortune s now).currentMode = DeviceMode.COOLDOWN) ∧
    (s.spinningStopTime ≤ now ∧ s.cooldownStop < now →
      (handleWheelOfFortune s now).currentMode = DeviceMode.IDLE) ∧
    (now < s.spinningStopTime →
      (handleWheelOfFortune s now).currentMode = s.currentMode) := by
  refine ⟨?_, ?_, ?_⟩
  · rintro ⟨h1, h2⟩
    rw [handle_stopped_cooldown s now hm h1 h2]
    exact setCooldownModes_mode s
  · rintro ⟨h1, h2⟩
    rw [handle_stopped_idle s now hm h1 h2]
    exact setIdleModes_mode s
  · intro h1
    by_cases h2 : s.spinningDelay < subU32 now s.lastSegmentSwitch
    · rw [handle_advance s now hm h1 h2]
    · rw [handle_gate s now hm h1 (by omega)]

/-- The scenario of C3: with `spinningStopTime = 7000` and `cooldownStop = 17000`,
a tick at 7000 yields `COOLDOWN`, a tick at 17001 yields `IDLE` (from `SPINNING`
and from `COOLDOWN`), a tick at 6999 leaves `SPINNING`. -/
theorem handleWheelOfFortune_mode_scenario :
    (handleWheelOfFortune spin7000 7000).currentMode = DeviceMode.COOLDOWN ∧
    (handleWheelOfFortune spin7000 17001).currentMode = DeviceMode.IDLE ∧
    (handleWheelOfFortune (handleWheelOfFortune spin7000 7000) 17001).currentMode
      = DeviceMode.IDLE ∧
    (handleWheelOfFortune spin7000 6999).currentMode = DeviceMode.SPINNING :=
  ⟨(handleWheelOfFortune_mode_decision spin7000 7000 (by decide)).1 (by decide),
   (handleWheelOfFortune_mode_decision spin7000 17001 (by decide)).2.1 (by decide),
   (handleWheelOfFortune_mode_decision (handleWheelOfFortune spin7000 7000) 17001
      (by decide)).2.1 (by decide),
   (handleWheelOfFortune_mode_decision spin7000 6999 (by decide)).2.2 (by decide)⟩

/-- Counterexample to C4 as stated.  In the scenario state
(`cooldownStop = 17000`) a tick at `now = 17000` satisfies `now >= cooldownStop`
and leaves the mode `COOLDOWN`, not `IDLE`.  And in a spin started 7296 ms
before the counter rolls over (`spinningStopTime = 4294967000`, `cooldownStop`
wrapped to 9704) a tick at `now = 4294960001` satisfies `now >= cooldownStop`
and leaves the mode `SPINNING`. -/
theorem handleWheelOfFortune_not_idle_at_cooldownStop :
    (spin7000.currentMode = DeviceMode.SPINNING ∧ spin7000.cooldownStop ≤ 17000 ∧
      (handleWheelOfFortune spin7000 17000).currentMode = DeviceMode.COOLDOWN ∧
      (handleWheelOfFortune spin7000 17000).currentMode ≠ DeviceMode.IDLE) ∧
    (spinNearRollover.currentMode = DeviceMode.SPINNING ∧
      spinNearRollover.cooldownStop ≤ 4294960001 ∧
      (handleWheelOfFortune spinNearRollover 4294960001).currentMode = DeviceMode.SPINNING ∧
      (handleWheelOfFortune spinNearRollover 4294960001).currentMode ≠ DeviceMode.IDLE) := by
  decide

/-- C4 (amended): for every state whose mode is `SPINNING` or `COOLDOWN` and
every clock value `now` with `now >= spinningStopTime` and `now > cooldownStop`,
one call of `handleWheelOfFortune` leaves the mode `IDLE`. -/
theorem handleWheelOfFortune_idle_after_cooldown (s : State) (now : Nat)
    (hm : s.currentMode = DeviceMode.SPINNING ∨ s.currentMode = DeviceMode.COOLDOWN)
    (h1 : s.spinningStopTime ≤ now) (h2 : s.cooldownStop < now) :
    (handleWheelOfFortune s now).currentMode = DeviceMode.IDLE := by
  rw [handle_stopped_idle s now hm h1 h2]
  exact setIdleModes_mode s

/-- The amended C4 at the scenario state: a tick at `now = 17001` leaves the
mode `IDLE`. -/
theorem handleWheelOfFortune_idle_at_17001 :
    (handleWheelOfFortune spin7000 17001).currentMode = DeviceMode.IDLE :=
  handleWheelOfFortune_idle_after_cooldown spin7000 17001 (by decide) (by decide) (by decide)

/-! ## The button -/

/-- Counterexample to C5 as stated: after `setup`, `checkButton` at clock value
`now = 4294967000` with the line LOW fires and leaves `nextButtonCheck = 204`,
not `now + 500`. -/
theorem checkButton_debounce_wraps :
    (setup powerOn).nextButtonCheck ≤ 4294967000 ∧
    (checkButton (setup powerOn) 4294967000 PinLevel.LOW 4294967000 7000).spinStarts
      = (setup powerOn).spinStarts + 1 ∧
    (checkButton (setup powerOn) 4294967000 PinLevel.LOW 4294967000 7000).nextButtonCheck
      = 204 ∧
    (checkButton (setup powerOn) 4294967000 PinLevel.LOW 4294967000 7000).nextButtonCheck
      ≠ 4294967000 + 500 := by
  decide

/-- C5 (amended): for every state and clock value `now`, `checkButton` calls
`startSpinning` (exactly once: `spinStarts` goes up by one) if and only if
`now >= nextButtonCheck` and the line reads LOW.  When it does, the result is
`startSpinning` applied to the state with `nextButtonCheck = (now + 500) mod 2^32`,
which is `now + 500` whenever `now + 500 < 2^32`.  When it does not, the whole
state is unchanged. -/
theorem checkButton_fires_iff (s : State) (now : Nat) (pin : PinLevel) (T D : Nat) :
    ((checkButton s now pin T D).spinStarts = s.spinStarts + 1
      ↔ (s.nextButtonCheck ≤ now ∧ pin = PinLevel.LOW)) ∧
    (s.nextButtonCheck ≤ now ∧ pin = PinLevel.LOW →
      checkButton s now pin T D
        = startSpinning { s with nextButtonCheck := (now + 500) % 4294967296 } T D ∧
      (checkButton s now pin T D).nextButtonCheck = (now + 500) % 4294967296 ∧
      (now + 500 < 4294967296 → (checkButton s now pin T D).nextButtonCheck = now + 500)) ∧
    (¬ (s.nextButtonCheck ≤ now ∧ pin = PinLevel.LOW) → checkButton s now pin T D = s) := by
  refine ⟨?_, ?_, ?_⟩
  · by_cases h : s.nextButtonCheck ≤ now ∧ pin = PinLevel.LOW
    · rw [checkButton_fire s now pin T D h, startSpinning_spinStarts]
      simp [h]
    · rw [checkButton_skip s now pin T D h]
      simp [h]
  · intro h
    have hn : (checkButton s now pin T D).nextButtonCheck = (now + 500) % 4294967296 := by
      rw [checkButton_fire s now pin T D h, startSpinning_nextButtonCheck]
    refine ⟨checkButton_fire s now pin T D h, hn, ?_⟩
    intro hlt
    rw [hn]
    omega
  · exact checkButton_skip s now pin T D

/-- The amended C5 at concrete inputs: a LOW read at clock value 0 after `setup`
leaves `nextButtonCheck = 500`; a HIGH read leaves the state as it was. -/
theorem checkButton_scenario :
    (checkButton (setup powerOn) 0 PinLevel.LOW 0 7000).nextButtonCheck = 500 ∧
    checkButton spin7000 0 PinLevel.HIGH 0 7000 = spin7000 :=
  ⟨((checkButton_fires_iff (setup powerOn) 0 PinLevel.LOW 0 7000).2.1
      (by decide)).2.2 (by decide),
   (checkButton_fires_iff spin7000 0 PinLevel.HIGH 0 7000).2.2 (by decide)⟩

set_option maxRecDepth 100000 in
/-- C6, the code at a failing input: after `setup` (`nextButtonCheck = 0`), with the
line held LOW and `checkButton` called at the 200 times `t0 + 10 * k`,
`t0 = 4294966796 = 2^32 - 500`, `startSpinning` is called 53 times: at each of
the first 50 polls (every 10 ms, until the counter rolls over) and at the polls
99, 149 and 199. -/
theorem debounce_fails_at_rollover :
    (setup powerOn).nextButtonCheck ≤ 4294966796 ∧
    heldLowFires (fun _ => 7000) 4294966796 (List.range 200) (setup powerOn)
      = List.range 50 ++ [99, 149, 199] ∧
    (heldLowFires (fun _ => 7000) 4294966796 (List.range 200) (setup powerOn)).length = 53 := by
  decide

/-! ## Mode entry -/

/-- C7: each mode-entry routine is idempotent on the whole state (mode, timers,
and the record of driver calls), and a routine called in its own target mode
returns the state unchanged, issuing no driver call. -/
theorem mode_entry_idempotent (s : State) :
    setIdleModes (setIdleModes s) = setIdleModes s ∧
    setSpinningModes (setSpinningModes s) = setSpinningModes s ∧
    setCooldownModes (setCooldownModes s) = setCooldownModes s ∧
    (s.currentMode = DeviceMode.IDLE → setIdleModes s = s) ∧
    (s.currentMode = DeviceMode.SPINNING → setSpinningModes s = s) ∧
    (s.currentMode = DeviceMode.COOLDOWN → setCooldownModes s = s) := by
  have hi : ∀ t : State, t.currentMode = DeviceMode.IDLE → setIdleModes t = t := by
    intro t h; unfold setIdleModes; rw [if_pos h]
  have hsp : ∀ t : State, t.currentMode = DeviceMode.SPINNING → setSpinningModes t = t := by
    intro t h; unfold setSpinningModes; rw [if_pos h]
  have hc : ∀ t : State, t.currentMode = DeviceMode.COOLDOWN → setCooldownModes t = t := by
    intro t h; unfold setCooldownModes; rw [if_pos h]
  exact ⟨hi _ (setIdleModes_mode s), hsp _ (setSpinningModes_mode s),
    hc _ (setCooldownModes_mode s), hi s, hsp s, hc s⟩

/-! ## Deceleration -/

set_option maxRecDepth 100000 in
/-- Counterexample to C8 as stated: a spin starts after `setup` at clock value
4294960000 with draw 7000 (stop time 4294967000).  The tick at 4294966990
performs the first advance and records `lastSegmentSwitch = 4294966990`,
`spinningDelay = 110`.  The next tick comes 410 ms later, after the counter has
rolled over, at clock value 104, and performs the second advance, although
`now - lastSegmentSwitch = 104 - 4294966990` is not above `100 + 10 * (2 - 1)`,
neither as a natural number nor as an integer. -/
theorem deceleration_gate_wraps :
    advanceCount (setup powerOn) 4294960000 7000 [4294966990] = 1 ∧
    (spinRun (setup powerOn) 4294960000 7000 [4294966990]).lastSegmentSwitch = 4294966990 ∧
    (spinRun (setup powerOn) 4294960000 7000 [4294966990]).spinningDelay = 110 ∧
    advanceCount (setup powerOn) 4294960000 7000 [4294966990, 104] = 2 ∧
    ¬ (104 - (spinRun (setup powerOn) 4294960000 7000 [4294966990]).lastSegmentSwitch
        > 100 + 10 * (2 - 1)) ∧
    ¬ ((104 : Int) - (spinRun (setup powerOn) 4294960000 7000 [4294966990]).lastSegmentSwitch
        > 100 + 10 * (2 - 1)) := by
  refine ⟨by rfl, by decide, by decide, by rfl, by decide, by decide⟩

/-- C8 (amended): in a run that starts with `startSpinning` and continues with
any ticks of `handleWheelOfFortune`, let `k` be the number of segment advances
performed so far.  As long as `k < 429496719` (so that `100 + 10 * (k + 1)` fits
the `uint`), the delay that gates the next advance is
`spinningDelay = 100 + 10 * k`, and the next tick either performs no advance and
leaves `spinningDelay` unchanged, or performs advance number `k + 1`, which
happens only if the elapsed time exceeds `100 + 10 * k` and leaves
`spinningDelay = 100 + 10 * (k + 1)`.  The elapsed time is the 32-bit unsigned
difference `(now - lastSegmentSwitch) mod 2^32` the code computes, which is
`now - lastSegmentSwitch` whenever `lastSegmentSwitch <= now < 2^32`.  Without
the bound on `k` the same holds with both delays taken modulo `2^32`
(`delay_wraps_on_long_run` shows a run on which the delay has wrapped). -/
theorem deceleration_monotone (s : State) (T D : Nat) (ticks : List Nat) (now : Nat) :
    (advanceCount s T D ticks < 429496719 →
      (spinRun s T D ticks).spinningDelay = 100 + 10 * advanceCount s T D ticks ∧
      ((advanceCount s T D (ticks ++ [now]) = advanceCount s T D ticks ∧
          (spinRun s T D (ticks ++ [now])).spinningDelay
            = 100 + 10 * advanceCount s T D ticks) ∨
        (advanceCount s T D (ticks ++ [now]) = advanceCount s T D ticks + 1 ∧
          100 + 10 * advanceCount s T D ticks
            < subU32 now (spinRun s T D ticks).lastSegmentSwitch ∧
          (spinRun s T D (ticks ++ [now])).spinningDelay
            = 100 + 10 * (advanceCount s T D ticks + 1)))) ∧
    (spinRun s T D ticks).spinningDelay
      = (100 + 10 * advanceCount s T D ticks) % 4294967296 ∧
    ((advanceCount s T D (ticks ++ [now]) = advanceCount s T D ticks ∧
        (spinRun s T D (ticks ++ [now])).spinningDelay = (spinRun s T D ticks).spinningDelay) ∨
      (advanceCount s T D (ticks ++ [now]) = advanceCount s T D ticks + 1 ∧
        (100 + 10 * advanceCount s T D ticks) % 4294967296
          < subU32 now (spinRun s T D ticks).lastSegmentSwitch ∧
        (spinRun s T D (ticks ++ [now])).spinningDelay
          = (100 + 10 * (advanceCount s T D ticks + 1)) % 4294967296)) ∧
    ((spinRun s T D ticks).lastSegmentSwitch ≤ now → now < 4294967296 →
      subU32 now (spinRun s T D ticks).lastSegmentSwitch
        = now - (spinRun s T D ticks).lastSegmentSwitch) := by
  have inv := runTicks_delay (advances (startSpinning s T D)) ticks (startSpinning s T D)
    ⟨Nat.le_refl _, by rw [startSpinning_delay]; simp⟩
  have happ : spinRun s T D (ticks ++ [now])
      = handleWheelOfFortune (spinRun s T D ticks) now := runTicks_append _ _ _
  have hcases := handle_tick_cases (spinRun s T D ticks) now
  rw [← happ] at hcases
  have hsub : (spinRun s T D ticks).lastSegmentSwitch ≤ now → now < 4294967296 →
      subU32 now (spinRun s T D ticks).lastSegmentSwitch
        = now - (spinRun s T D ticks).lastSegmentSwitch := by
    intro h1 h2
    unfold subU32 WORD
    omega
  refine ⟨?_, ?_, ?_, hsub⟩ <;> clear hsub
  all_goals
    unfold advanceCount
    change _ ≤ advances (spinRun s T D ticks) ∧
      (spinRun s T D ticks).spinningDelay
        = (100 + 10 * (advances (spinRun s T D ticks) - _)) % 4294967296 at inv
    generalize advances (startSpinning s T D) = a0 at *
    generalize advances (spinRun s T D ticks) = a at *
    generalize advances (spinRun s T D (ticks ++ [now])) = a1 at *
    generalize (spinRun s T D ticks).spinningDelay = d at *
    generalize (spinRun s T D (ticks ++ [now])).spinningDelay = d1 at *
    generalize subU32 now (spinRun s T D ticks).lastSegmentSwitch = g at *
    obtain ⟨hle, hd⟩ := inv
  · intro hk
    have hd0 : d = 100 + 10 * (a - a0) := by omega
    refine ⟨hd0, ?_⟩
    rcases hcases with ⟨ha, hd1⟩ | ⟨ha, hg, hd1⟩
    · left
      exact ⟨by omega, by omega⟩
    · right
      refine ⟨by omega, by omega, ?_⟩
      rw [hd1]
      omega
  · exact hd
  · rcases hcases with ⟨ha, hd1⟩ | ⟨ha, hg, hd1⟩
    · left
      exact ⟨by omega, hd1⟩
    · right
      refine ⟨by omega, by omega, ?_⟩
      rw [hd1, hd]
      omega

set_option maxRecDepth 100000 in
/-- C8 on a concrete run: after a spin starts at clock value 0, ticks at 50, 101,
150 and 212 perform two advances (at 101 and at 212) and leave
`spinningDelay = 120`. -/
theorem deceleration_scenario :
    advanceCount (setup powerOn) 0 7000 [50, 101, 150, 212] = 2 ∧
    (spinRun (setup powerOn) 0 7000 [50, 101, 150, 212]).spinningDelay = 120 := by
  have h2 : advanceCount (setup powerOn) 0 7000 [50, 101, 150, 212] = 2 := by rfl
  have h := (deceleration_monotone (setup powerOn) 0 7000 [50, 101, 150, 212] 300).1
  rw [h2] at h
  exact ⟨h2, (h (by decide)).1⟩

/-! ## Segment advance -/

/-- C9: in a segment-advance step of `handleWheelOfFortune` from
`currentActiveSegment = c` in 0..7, the new `currentActiveSegment` is
`(c + 1) mod 8`; `previousSegment`, computed from the new value, is `c`, which is
`(new - 1) mod 8` taken in 0..7; the step issues `setPixelColor` BLACK on the 64
positions of segment `c`, GREEN on the 64 positions of the new segment, then
`show`; `c = 7` advances to 0, and when the new segment is 0 the previous one
is 7. -/
theorem segment_wraparound (s : State) (now : Nat)
    (hc : s.currentActiveSegment < 8)
    (hm : s.currentMode = DeviceMode.SPINNING ∨ s.currentMode = DeviceMode.COOLDOWN)
    (h1 : now < s.spinningStopTime) (h2 : s.spinningDelay < subU32 now s.lastSegmentSwitch) :
    (handleWheelOfFortune s now).currentActiveSegment = (s.currentActiveSegment + 1) % 8 ∧
    previousSegment (handleWheelOfFortune s now).currentActiveSegment
      = s.currentActiveSegment ∧
    (previousSegment (handleWheelOfFortune s now).currentActiveSegment : Int)
      = (((handleWheelOfFortune s now).currentActiveSegment : Int) - 1) % 8 ∧
    (handleWheelOfFortune s now).driverLog
      = s.driverLog
        ++ pixelCalls (64 * s.currentActiveSegment) 64 Color.BLACK
        ++ pixelCalls (64 * ((s.currentActiveSegment + 1) % 8)) 64 Color.GREEN
        ++ [(Device.wheel, Cmd.show_)] ∧
    (s.currentActiveSegment = 7 → (handleWheelOfFortune s now).currentActiveSegment = 0) ∧
    ((handleWheelOfFortune s now).currentActiveSegment = 0 →
      previousSegment (handleWheelOfFortune s now).currentActiveSegment = 7) := by
  have hn : nextSegment s.currentActiveSegment = (s.currentActiveSegment + 1) % 8 := by
    unfold nextSegment BYTE
    split <;> omega
  have hp : previousSegment ((s.currentActiveSegment + 1) % 8) = s.currentActiveSegment := by
    unfold previousSegment
    split <;> omega
  rw [handle_advance s now hm h1 h2]
  simp only [hn, hp]
  refine ⟨trivial, trivial, ?_, ?_, ?_, ?_⟩
  · omega
  · have e1 : s.currentActiveSegment % 256 * 64 = 64 * s.currentActiveSegment := by omega
    have e2 : (s.currentActiveSegment + 1) % 8 % 256 * 64
        = 64 * ((s.currentActiveSegment + 1) % 8) := by omega
    rw [e1, e2]
  · intro h; omega
  · intro h; omega

/-- C9 at the wrap: from segment 7 the step leads to segment 0, whose previous
segment is 7. -/
theorem segment_wraparound_at_7 :
    (handleWheelOfFortune spin7000AtSegment7 200).currentActiveSegment = 0 ∧
    previousSegment (handleWheelOfFortune spin7000AtSegment7 200).currentActiveSegment = 7 :=
  ⟨(segment_wraparound spin7000AtSegment7 200 (by decide) (by decide) (by decide)
      (by decide)).2.2.2.2.1 (by decide),
   (segment_wraparound spin7000AtSegment7 200 (by decide) (by decide) (by decide)
      (by decide)).2.1⟩

/-! ## Winner reveal -/

/-- C10: for every state in mode `SPINNING` with `currentActiveSegment = c` in
0..7 and every `now` with `spinningStopTime <= now <= cooldownStop`,
`handleWheelOfFortune` enters `COOLDOWN`, leaves `currentActiveSegment = c`, and
issues exactly `wheel.setSpeed(1000)`, `wheel.setColor(GREEN)` and
`wheel.setSegment(0, 64*c, 64*c + 63, FX_MODE_BLINK, GREEN, 100)`. -/
theorem winner_reveal (s : State) (now : Nat)
    (hm : s.currentMode = DeviceMode.SPINNING) (hc : s.currentActiveSegment < 8)
    (h1 : s.spinningStopTime ≤ now) (h2 : now ≤ s.cooldownStop) :
    (handleWheelOfFortune s now).currentMode = DeviceMode.COOLDOWN ∧
    (handleWheelOfFortune s now).currentActiveSegment = s.currentActiveSegment ∧
    (handleWheelOfFortune s now).driverLog
      = s.driverLog ++
        [(Device.wheel, Cmd.setSpeed 1000),
         (Device.wheel, Cmd.setColor Color.GREEN),
         (Device.wheel, Cmd.setSegment 0 (64 * s.currentActiveSegment)
            (64 * s.currentActiveSegment + 63) FxMode.FX_MODE_BLINK Color.GREEN 100)] := by
  have e1 : s.currentActiveSegment % 256 * 64 = 64 * s.currentActiveSegment := by omega
  rw [handle_stopped_cooldown s now (Or.inl hm) h1 h2]
  unfold setCooldownModes
  simp [hm, call, getSegmentConfig_eq, e1]

/-- C10 in the scenario: the tick at `now = 7000` enters `COOLDOWN` with the blink
over positions 0..63 of segment 0. -/
theorem winner_reveal_scenario :
    (handleWheelOfFortune spin7000 7000).currentMode = DeviceMode.COOLDOWN ∧
    (handleWheelOfFortune spin7000 7000).currentActiveSegment = 0 ∧
    (handleWheelOfFortune spin7000 7000).driverLog
      = spin7000.driverLog ++
        [(Device.wheel, Cmd.setSpeed 1000),
         (Device.wheel, Cmd.setColor Color.GREEN),
         (Device.wheel, Cmd.setSegment 0 0 63 FxMode.FX_MODE_BLINK Color.GREEN 100)] :=
  winner_reveal spin7000 7000 (by decide) (by decide) (by decide) (by decide)

/-! ## Helper lemmas for runs and views -/

/-! ### The mode-entry routines and `startSpinning`, case by case -/

theorem setIdleModes_eq (s : State) (h : s.currentMode ≠ DeviceMode.IDLE) :
    setIdleModes s =
      { s with
        currentMode := DeviceMode.IDLE
        driverLog := s.driverLog ++
          [(Device.wheel, Cmd.resetSegments),
           (Device.wheel, Cmd.setSegment 0 0 511 FxMode.FX_MODE_RAINBOW_CYCLE Color.BLACK 5000),
           (Device.button, Cmd.setColor Color.GREEN),
           (Device.button, Cmd.setMode FxMode.FX_MODE_BREATH)] } := by
  unfold setIdleModes
  rw [if_neg h]
  simp [call, WHEEL_NUM_LEDS]

theorem setSpinningModes_eq (s : State) (h : s.currentMode ≠ DeviceMode.SPINNING) :
    setSpinningModes s =
      { s with
        currentMode := DeviceMode.SPINNING
        driverLog := s.driverLog ++
          [(Device.wheel, Cmd.setMode FxMode.FX_MODE_STATIC),
           (Device.button, Cmd.setMode FxMode.FX_MODE_STATIC),
           (Device.button, Cmd.setColor Color.RED)] } := by
  unfold setSpinningModes
  rw [if_neg h]
  simp [call]

theorem setCooldownModes_eq (s : State) (h : s.currentMode ≠ DeviceMode.COOLDOWN) :
    setCooldownModes s =
      { s with
        currentMode := DeviceMode.COOLDOWN
        driverLog := s.driverLog ++
          [(Device.wheel, Cmd.setSpeed 1000),
           (Device.wheel, Cmd.setColor Color.GREEN),
           (Device.wheel, Cmd.setSegment 0 (s.currentActiveSegment % 256 * 64)
              (s.currentActiveSegment % 256 * 64 + 63) FxMode.FX_MODE_BLINK
              Color.GREEN 100)] } := by
  unfold setCooldownModes
  rw [if_neg h]
  simp [call, getSegmentConfig_eq]

theorem setIdleModes_same (s : State) (h : s.currentMode = DeviceMode.IDLE) :
    setIdleModes s = s := by
  unfold setIdleModes; rw [if_pos h]

theorem setSpinningModes_same (s : State) (h : s.currentMode = DeviceMode.SPINNING) :
    setSpinningModes s = s := by
  unfold setSpinningModes; rw [if_pos h]

theorem setCooldownModes_same (s : State) (h : s.currentMode = DeviceMode.COOLDOWN) :
    setCooldownModes s = s := by
  unfold setCooldownModes; rw [if_pos h]

theorem setIdleModes_frame (s : State) :
    setIdleModes s
      = { s with currentMode := DeviceMode.IDLE, driverLog := (setIdleModes s).driverLog } := by
  by_cases h : s.currentMode = DeviceMode.IDLE
  · rw [setIdleModes_same s h]
    cases s
    simp_all
  · rw [setIdleModes_eq s h]

theorem setSpinningModes_frame (s : State) :
    setSpinningModes s
      = { s with currentMode := DeviceMode.SPINNING,
                 driverLog := (setSpinningModes s).driverLog } := by
  by_cases h : s.currentMode = DeviceMode.SPINNING
  · rw [setSpinningModes_same s h]
    cases s
    simp_all
  · rw [setSpinningModes_eq s h]

theorem setCooldownModes_frame (s : State) :
    setCooldownModes s
      = { s with currentMode := DeviceMode.COOLDOWN,
                 driverLog := (setCooldownModes s).driverLog } := by
  by_cases h : s.currentMode = DeviceMode.COOLDOWN
  · rw [setCooldownModes_same s h]
    cases s
    simp_all
  · rw [setCooldownModes_eq s h]

/-- What `startSpinning` leaves: the three fields it assigns, then
`setSpinningModes`. -/
theorem startSpinning_eq (s : State) (T D : Nat) :
    startSpinning s T D =
      setSpinningModes
        { s with
          spinStarts := s.spinStarts + 1
          spinningStopTime := (T + D) % 4294967296
          cooldownStop := ((T + D) % 4294967296 + 10000) % 4294967296
          spinningDelay := 100 } := rfl

/-- The two timers as `startSpinning` leaves them. -/
theorem startSpinning_stop_cooldown (s : State) (T D : Nat) :
    (startSpinning s T D).spinningStopTime = (T + D) % 4294967296 ∧
    (startSpinning s T D).cooldownStop = ((T + D) % 4294967296 + 10000) % 4294967296 := by
  rw [startSpinning_eq, setSpinningModes_frame]
  exact ⟨rfl, rfl⟩

/-- The state `setup` leaves from power-on. -/
theorem setup_powerOn :
    setup powerOn =
      { powerOn with
        currentMode := DeviceMode.IDLE
        driverLog :=
          [(Device.board, Cmd.serialBegin 115200),
           (Device.wheel, Cmd.init),
           (Device.wheel, Cmd.setBrightness 80),
           (Device.wheel, Cmd.setColor Color.BLACK),
           (Device.button, Cmd.init),
           (Device.wheel, Cmd.resetSegments),
           (Device.wheel, Cmd.setSegment 0 0 511 FxMode.FX_MODE_RAINBOW_CYCLE Color.BLACK 5000),
           (Device.button, Cmd.setColor Color.GREEN),
           (Device.button, Cmd.setMode FxMode.FX_MODE_BREATH),
           (Device.wheel, Cmd.start),
           (Device.button, Cmd.start),
           (Device.board, Cmd.pinModeInputPullup 27)] } := by
  decide

/-! ### The cases of a call, with the state it leaves -/

/-- The mode before a call of `handleWheelOfFortune` that is not a no-op. -/
theorem mode_cases (s : State) :
    (s.currentMode ≠ DeviceMode.SPINNING ∧ s.currentMode ≠ DeviceMode.COOLDOWN) ∨
    (s.currentMode = DeviceMode.SPINNING ∨ s.currentMode = DeviceMode.COOLDOWN) := by
  cases h : s.currentMode <;> simp

/-- Every call of `handleWheelOfFortune` is one of its five cases. -/
theorem handle_cases (s : State) (now : Nat) :
    handleWheelOfFortune s now = s ∨
    handleWheelOfFortune s now = setCooldownModes s ∧
      (s.currentMode = DeviceMode.SPINNING ∨ s.currentMode = DeviceMode.COOLDOWN) ∧
      s.spinningStopTime ≤ now ∧ now ≤ s.cooldownStop ∨
    handleWheelOfFortune s now = setIdleModes s ∧
      (s.currentMode = DeviceMode.SPINNING ∨ s.currentMode = DeviceMode.COOLDOWN) ∧
      s.spinningStopTime ≤ now ∧ s.cooldownStop < now ∨
    handleWheelOfFortune s now =
      { s with
        lastSegmentSwitch := now
        spinningDelay := addU32 s.spinningDelay 10
        currentActiveSegment := nextSegment s.currentActiveSegment
        driverLog := s.driverLog
          ++ pixelCalls (previousSegment (nextSegment s.currentActiveSegment) % 256 * 64) 64
              Color.BLACK
          ++ pixelCalls (nextSegment s.currentActiveSegment % 256 * 64) 64 Color.GREEN
          ++ [(Device.wheel, Cmd.show_)] } ∧
      (s.currentMode = DeviceMode.SPINNING ∨ s.currentMode = DeviceMode.COOLDOWN) ∧
      now < s.spinningStopTime ∧ s.spinningDelay < subU32 now s.lastSegmentSwitch := by
  rcases mode_cases s with hm | hm
  · exact Or.inl (handle_inactive s now hm)
  · by_cases h1 : now < s.spinningStopTime
    · by_cases h2 : s.spinningDelay < subU32 now s.lastSegmentSwitch
      · exact Or.inr (Or.inr (Or.inr ⟨handle_advance s now hm h1 h2, hm, h1, h2⟩))
      · exact Or.inl (handle_gate s now hm h1 (by omega))
    · by_cases h3 : now ≤ s.cooldownStop
      · exact Or.inr (Or.inl
          ⟨handle_stopped_cooldown s now hm (by omega) h3, hm, by omega, h3⟩)
      · exact Or.inr (Or.inr (Or.inl
          ⟨handle_stopped_idle s now hm (by omega) (by omega), hm, by omega, by omega⟩))

/-- Every call of `handleWheelOfFortune` is one of four cases, each with the
state it leaves: no change; entry into `COOLDOWN` from `SPINNING`; entry into
`IDLE`; one segment advance. -/
theorem handle_cases4 (s : State) (now : Nat) :
    handleWheelOfFortune s now = s ∨
    (s.currentMode = DeviceMode.SPINNING ∧
      s.spinningStopTime ≤ now ∧ now ≤ s.cooldownStop ∧
      handleWheelOfFortune s now =
        { s with
          currentMode := DeviceMode.COOLDOWN
          driverLog := s.driverLog ++
            [(Device.wheel, Cmd.setSpeed 1000),
             (Device.wheel, Cmd.setColor Color.GREEN),
             (Device.wheel, Cmd.setSegment 0 (s.currentActiveSegment % 256 * 64)
                (s.currentActiveSegment % 256 * 64 + 63) FxMode.FX_MODE_BLINK
                Color.GREEN 100)] }) ∨
    ((s.currentMode = DeviceMode.SPINNING ∨ s.currentMode = DeviceMode.COOLDOWN) ∧
      s.spinningStopTime ≤ now ∧ s.cooldownStop < now ∧
      handleWheelOfFortune s now =
        { s with
          currentMode := DeviceMode.IDLE
          driverLog := s.driverLog ++
            [(Device.wheel, Cmd.resetSegments),
             (Device.wheel,
                Cmd.setSegment 0 0 511 FxMode.FX_MODE_RAINBOW_CYCLE Color.BLACK 5000),
             (Device.button, Cmd.setColor Color.GREEN),
             (Device.button, Cmd.setMode FxMode.FX_MODE_BREATH)] }) ∨
    ((s.currentMode = DeviceMode.SPINNING ∨ s.currentMode = DeviceMode.COOLDOWN) ∧
      now < s.spinningStopTime ∧ s.spinningDelay < subU32 now s.lastSegmentSwitch ∧
      handleWheelOfFortune s now =
        { s with
          lastSegmentSwitch := now
          spinningDelay := addU32 s.spinningDelay 10
          currentActiveSegment := nextSegment s.currentActiveSegment
          driverLog := s.driverLog
            ++ pixelCalls (previousSegment (nextSegment s.currentActiveSegment) % 256 * 64) 64
                Color.BLACK
            ++ pixelCalls (nextSegment s.currentActiveSegment % 256 * 64) 64 Color.GREEN
            ++ [(Device.wheel, Cmd.show_)] }) := by
  rcases handle_cases s now with e | ⟨e, hm, h1, h2⟩ | ⟨e, hm, h1, h2⟩ | ⟨e, hm, h1, h2⟩
  · exact Or.inl e
  · by_cases hc : s.currentMode = DeviceMode.COOLDOWN
    · left
      rw [e, setCooldownModes_same s hc]
    · right; left
      have hs : s.currentMode = DeviceMode.SPINNING := by
        rcases hm with h | h
        · exact h
        · exact absurd h hc
      exact ⟨hs, h1, h2, by rw [e, setCooldownModes_eq s hc]⟩
  · right; right; left
    have hi : s.currentMode ≠ DeviceMode.IDLE := by
      rcases hm with h | h <;> rw [h] <;> decide
    exact ⟨hm, h1, h2, by rw [e, setIdleModes_eq s hi]⟩
  · right; right; right
    exact ⟨hm, h1, h2, e⟩

/-- `handleWheelOfFortune` writes neither timer of the spin nor the debounce
deadline. -/
theorem handle_timers (s : State) (now : Nat) :
    (handleWheelOfFortune s now).spinningStopTime = s.spinningStopTime ∧
    (handleWheelOfFortune s now).cooldownStop = s.cooldownStop ∧
    (handleWheelOfFortune s now).nextButtonCheck = s.nextButtonCheck := by
  rcases handle_cases s now with h | ⟨h, _⟩ | ⟨h, _⟩ | ⟨h, _⟩
  · rw [h]; exact ⟨rfl, rfl, rfl⟩
  · rw [h, setCooldownModes_frame]; exact ⟨rfl, rfl, rfl⟩
  · rw [h, setIdleModes_frame]; exact ⟨rfl, rfl, rfl⟩
  · rw [h]; exact ⟨rfl, rfl, rfl⟩

/-- Every call of `checkButton` either leaves the state or starts a spin. -/
theorem checkButton_cases (s : State) (now : Nat) (pin : PinLevel) (T D : Nat) :
    checkButton s now pin T D = s ∨
    checkButton s now pin T D
      = startSpinning { s with nextButtonCheck := (now + 500) % 4294967296 } T D ∧
      s.nextButtonCheck ≤ now ∧ pin = PinLevel.LOW := by
  by_cases h : s.nextButtonCheck ≤ now ∧ pin = PinLevel.LOW
  · exact Or.inr ⟨checkButton_fire s now pin T D h, h⟩
  · exact Or.inl (checkButton_skip s now pin T D h)

/-- Every call of `checkButton` is one of three cases: it leaves the state, it
restarts a spin that is running, or it starts a spin from another mode. -/
theorem checkButton_cases3 (s : State) (now : Nat) (pin : PinLevel) (T D : Nat) :
    checkButton s now pin T D = s ∨
    (s.currentMode = DeviceMode.SPINNING ∧
      checkButton s now pin T D =
        { s with
          nextButtonCheck := (now + 500) % 4294967296
          spinStarts := s.spinStarts + 1
          spinningStopTime := (T + D) % 4294967296
          cooldownStop := ((T + D) % 4294967296 + 10000) % 4294967296
          spinningDelay := 100 }) ∨
    (s.currentMode ≠ DeviceMode.SPINNING ∧
      checkButton s now pin T D =
        { s with
          nextButtonCheck := (now + 500) % 4294967296
          spinStarts := s.spinStarts + 1
          spinningStopTime := (T + D) % 4294967296
          cooldownStop := ((T + D) % 4294967296 + 10000) % 4294967296
          spinningDelay := 100
          currentMode := DeviceMode.SPINNING
          driverLog := s.driverLog ++
            [(Device.wheel, Cmd.setMode FxMode.FX_MODE_STATIC),
             (Device.button, Cmd.setMode FxMode.FX_MODE_STATIC),
             (Device.button, Cmd.setColor Color.RED)] }) := by
  rcases checkButton_cases s now pin T D with e | ⟨e, _⟩
  · exact Or.inl e
  · right
    rw [e, startSpinning_eq]
    by_cases hm : s.currentMode = DeviceMode.SPINNING
    · left
      refine ⟨hm, ?_⟩
      rw [setSpinningModes_same]
      exact hm
    · right
      refine ⟨hm, ?_⟩
      rw [setSpinningModes_eq]
      exact hm

theorem advances_advance (log : List (Device × Cmd)) (i j : Nat) :
    (log ++ pixelCalls i 64 Color.BLACK ++ pixelCalls j 64 Color.GREEN
      ++ [(Device.wheel, Cmd.show_)]).count (Device.wheel, Cmd.show_)
      = log.count (Device.wheel, Cmd.show_) + 1 := by
  simp [List.count_append, count_show_pixelCalls]

/-- A call of `handleWheelOfFortune` that records one more `show` is a segment
advance. -/
theorem advance_of_show (s : State) (now : Nat)
    (h : advances (handleWheelOfFortune s now) = advances s + 1) :
    handleWheelOfFortune s now =
      { s with
        lastSegmentSwitch := now
        spinningDelay := addU32 s.spinningDelay 10
        currentActiveSegment := nextSegment s.currentActiveSegment
        driverLog := s.driverLog
          ++ pixelCalls (previousSegment (nextSegment s.currentActiveSegment) % 256 * 64) 64
              Color.BLACK
          ++ pixelCalls (nextSegment s.currentActiveSegment % 256 * 64) 64 Color.GREEN
          ++ [(Device.wheel, Cmd.show_)] } := by
  rcases handle_tick_cases s now with ⟨ha, _⟩ | ⟨_, hg, _⟩
  · omega
  · rcases handle_cases4 s now with e | ⟨_, _, _, e⟩ | ⟨_, _, _, e⟩ | ⟨_, _, _, e⟩
    · rw [e] at h; omega
    · rw [e] at h
      simp [advances, List.count_append, List.count_cons] at h
    · rw [e] at h
      simp [advances, List.count_append, List.count_cons] at h
    · exact e

/-! ### Runs -/

/-- A property that holds after `setup` and is kept by every call of
`checkButton` and of `handleWheelOfFortune` holds after every run. -/
theorem runCalls_invariant (P : State → Prop)
    (hb : ∀ s m pin ms d, P s → P (checkButton s m pin ms d))
    (hw : ∀ s m, P s → P (handleWheelOfFortune s m)) :
    ∀ (cs : List Call) (s : State), P s → P (runCalls s cs) := by
  intro cs
  induction cs with
  | nil => intro s h; exact h
  | cons c cs ih =>
    intro s h
    cases c with
    | button m pin ms d => exact ih _ (hb s m pin ms d h)
    | wheel m => exact ih _ (hw s m h)

theorem runCalls_append (cs1 cs2 : List Call) : ∀ s : State,
    runCalls s (cs1 ++ cs2) = runCalls (runCalls s cs1) cs2 := by
  induction cs1 with
  | nil => intro s; rfl
  | cons c cs ih => intro s; exact ih (applyCall s c)

/-- In every state of a run the two timers are either both still 0, or
`cooldownStop` is `spinningStopTime + 10000` in `unsigned long` arithmetic. -/
theorem run_timers (cs : List Call) :
    (runCalls (setup powerOn) cs).spinningStopTime < 4294967296 ∧
    ((runCalls (setup powerOn) cs).cooldownStop
        = ((runCalls (setup powerOn) cs).spinningStopTime + 10000) % 4294967296 ∨
      ((runCalls (setup powerOn) cs).spinningStopTime = 0 ∧
        (runCalls (setup powerOn) cs).cooldownStop = 0)) := by
  apply runCalls_invariant
    (fun s => s.spinningStopTime < 4294967296 ∧
      (s.cooldownStop = (s.spinningStopTime + 10000) % 4294967296 ∨
        (s.spinningStopTime = 0 ∧ s.cooldownStop = 0)))
  · intro s m pin ms d h
    rcases checkButton_cases s m pin ms d with e | ⟨e, _⟩
    · rw [e]; exact h
    · obtain ⟨e1, e2⟩ := startSpinning_stop_cooldown
        { s with nextButtonCheck := (m + 500) % 4294967296 } ms d
      rw [e, e1, e2]
      exact ⟨Nat.mod_lt _ (by decide), Or.inl rfl⟩
  · intro s m h
    obtain ⟨e1, e2, _⟩ := handle_timers s m
    rw [e1, e2]
    exact h
  · rw [setup_powerOn]
    exact ⟨by decide, Or.inr ⟨rfl, rfl⟩⟩

/-- Away from the rollover the timers are ordered: in every state of a run with
`spinningStopTime + 10000 < 2^32`, `cooldownStop >= spinningStopTime`. -/
theorem timer_order_without_wrap (cs : List Call)
    (h : (runCalls (setup powerOn) cs).spinningStopTime + 10000 < 4294967296) :
    (runCalls (setup powerOn) cs).spinningStopTime
      ≤ (runCalls (setup powerOn) cs).cooldownStop := by
  obtain ⟨_, h2⟩ := run_timers cs
  generalize (runCalls (setup powerOn) cs).spinningStopTime = a at *
  generalize (runCalls (setup powerOn) cs).cooldownStop = b at *
  omega

/-- While the mode is `COOLDOWN`, `spinningStopTime` is at most any clock value
that is not below the clock values read so far. -/
theorem cooldown_after_stop (cs : List Call) : ∀ (s : State) (now : Nat),
    (∀ t ∈ clockReads cs, t ≤ now) →
    (s.currentMode = DeviceMode.COOLDOWN → s.spinningStopTime ≤ now) →
    (runCalls s cs).currentMode = DeviceMode.COOLDOWN →
    (runCalls s cs).spinningStopTime ≤ now := by
  induction cs with
  | nil => intro s now _ h hm; exact h hm
  | cons c cs ih =>
    intro s now ht h
    cases c with
    | button m pin ms d =>
      have ht2 : ∀ t ∈ clockReads cs, t ≤ now := by
        intro t h2
        exact ht t (by simp [clockReads, h2])
      apply ih (checkButton s m pin ms d) now ht2
      rcases checkButton_cases3 s m pin ms d with e | ⟨hm, e⟩ | ⟨_, e⟩
      · rw [e]; exact h
      · rw [e]; intro hc; exact absurd (hm.symm.trans hc) (by decide)
      · rw [e]; intro hc; simp at hc
    | wheel m =>
      have ht2 : ∀ t ∈ clockReads cs, t ≤ now := by
        intro t h2
        exact ht t (by simp [clockReads, h2])
      have hm1 : m ≤ now := ht m (by simp [clockReads])
      apply ih (handleWheelOfFortune s m) now ht2
      rcases handle_cases4 s m with e | ⟨_, h1, _, e⟩ | ⟨_, _, _, e⟩ | ⟨_, _, _, e⟩
      · rw [e]; exact h
      · rw [e]; intro _; exact Nat.le_trans h1 hm1
      · rw [e]; intro hc; simp at hc
      · rw [e]; exact h

/-! ### Segments and positions -/

theorem nextSegment_lt (c : Nat) (h : c < 8) : nextSegment c < 8 := by
  unfold nextSegment BYTE
  split <;> omega

theorem previous_next (c : Nat) (h : c < 8) : previousSegment (nextSegment c) = c := by
  unfold previousSegment nextSegment BYTE
  split <;> split <;> omega

theorem pixelCalls_inRange (i n : Nat) (c : Color) (h : i + n ≤ 512) :
    ∀ e ∈ pixelCalls i n c, e.2.inRange := by
  intro e he
  simp only [pixelCalls, List.mem_map, List.mem_range'_1] at he
  obtain ⟨p, hp, rfl⟩ := he
  simp only [Cmd.inRange, WHEEL_NUM_LEDS]
  omega

/-- Index validity is kept by every call: the active segment stays in 0..7 and
every recorded driver call names positions on the strip only. -/
theorem run_inRange (cs : List Call) :
    (runCalls (setup powerOn) cs).currentActiveSegment < 8 ∧
    ∀ e ∈ (runCalls (setup powerOn) cs).driverLog, e.2.inRange := by
  apply runCalls_invariant
    (fun s => s.currentActiveSegment < 8 ∧ ∀ e ∈ s.driverLog, e.2.inRange)
  · intro s m pin ms d h
    rcases checkButton_cases3 s m pin ms d with e | ⟨_, e⟩ | ⟨_, e⟩
    · rw [e]; exact h
    · rw [e]; exact h
    · rw [e]
      refine ⟨h.1, ?_⟩
      intro e he
      simp only [List.mem_append, List.mem_cons, List.mem_singleton, List.not_mem_nil,
        or_false] at he
      rcases he with he | rfl | rfl | rfl
      · exact h.2 e he
      all_goals simp [Cmd.inRange]
  · intro s m h
    obtain ⟨hc, hl⟩ := h
    rcases handle_cases s m with e | ⟨e, _⟩ | ⟨e, _⟩ | ⟨e, _⟩
    · rw [e]; exact ⟨hc, hl⟩
    · by_cases hm : s.currentMode = DeviceMode.COOLDOWN
      · rw [e, setCooldownModes_same _ hm]; exact ⟨hc, hl⟩
      · rw [e, setCooldownModes_eq _ hm]
        refine ⟨hc, ?_⟩
        intro x hx
        simp only [List.mem_append, List.mem_cons, List.mem_singleton, List.not_mem_nil,
          or_false] at hx
        rcases hx with hx | rfl | rfl | rfl
        · exact hl x hx
        · simp [Cmd.inRange]
        · simp [Cmd.inRange]
        · simp only [Cmd.inRange, WHEEL_NUM_LEDS]
          omega
    · by_cases hm : s.currentMode = DeviceMode.IDLE
      · rw [e, setIdleModes_same _ hm]; exact ⟨hc, hl⟩
      · rw [e, setIdleModes_eq _ hm]
        refine ⟨hc, ?_⟩
        intro x hx
        simp only [List.mem_append, List.mem_cons, List.mem_singleton, List.not_mem_nil,
          or_false] at hx
        rcases hx with hx | rfl | rfl | rfl | rfl
        · exact hl x hx
        all_goals simp [Cmd.inRange, WHEEL_NUM_LEDS]
    · rw [e]
      have hn := nextSegment_lt _ hc
      refine ⟨hn, ?_⟩
      rw [previous_next _ hc]
      intro x hx
      simp only [List.mem_append, List.mem_singleton] at hx
      rcases hx with ((hx | hx) | hx) | rfl
      · exact hl x hx
      · exact pixelCalls_inRange _ 64 _ (by omega) x hx
      · exact pixelCalls_inRange _ 64 _ (by omega) x hx
      · simp [Cmd.inRange]
  · rw [setup_powerOn]
    refine ⟨by decide, ?_⟩
    intro x hx
    simp only [List.mem_cons, List.mem_singleton, List.not_mem_nil, or_false] at hx
    rcases hx with rfl | rfl | rfl | rfl | rfl | rfl | rfl | rfl | rfl | rfl | rfl | rfl
    all_goals simp [Cmd.inRange, WHEEL_NUM_LEDS]

/-! ### The indicator and the pixel buffer -/

theorem indicator_append (log l : List (Device × Cmd)) :
    indicator (log ++ l) = l.foldl setIndicator (indicator log) := by
  unfold indicator
  rw [List.foldl_append]

theorem indicator_pixelCalls (i n : Nat) (c : Color) :
    ∀ ind, (pixelCalls i n c).foldl setIndicator ind = ind := by
  induction n generalizing i with
  | zero => intro ind; rfl
  | succ n ih =>
    intro ind
    rw [pixelCalls, List.range'_succ, List.map_cons, List.foldl_cons]
    exact ih (i + 1) _

theorem pixelBuffer_append (log l : List (Device × Cmd)) :
    pixelBuffer (log ++ l) = l.foldl writePixel (pixelBuffer log) := by
  unfold pixelBuffer
  rw [List.foldl_append]

/-- The buffer after the writes of one `setSegmentToColor`: colour `c` on the
`n` positions from `i` on, every other position as before. -/
theorem foldl_writePixel_pixelCalls (n : Nat) : ∀ (i : Nat) (c : Color) (buf : Nat → Color)
    (p : Nat),
    (pixelCalls i n c).foldl writePixel buf p = if i ≤ p ∧ p < i + n then c else buf p := by
  induction n with
  | zero =>
    intro i c buf p
    have h : ¬ (i ≤ p ∧ p < i + 0) := by omega
    rw [if_neg h]
    rfl
  | succ n ih =>
    intro i c buf p
    rw [pixelCalls, List.range'_succ, List.map_cons, List.foldl_cons]
    have e := ih (i + 1) c (writePixel buf (Device.wheel, Cmd.setPixelColor i c)) p
    rw [pixelCalls] at e
    rw [e]
    show (if i + 1 ≤ p ∧ p < i + 1 + n then c else if p = i then c else buf p) = _
    by_cases h1 : i + 1 ≤ p ∧ p < i + 1 + n
    · rw [if_pos h1, if_pos (by omega)]
    · rw [if_neg h1]
      by_cases h2 : p = i
      · rw [if_pos h2, if_pos (by omega)]
      · rw [if_neg h2, if_neg (by omega)]

/-- The pixel buffer after a segment advance from segment `c` (in 0..7): GREEN on
the new segment, BLACK on the vacated one, as before elsewhere. -/
theorem pixelBuffer_advance (log : List (Device × Cmd)) (c : Nat) (hc : c < 8) (p : Nat) :
    pixelBuffer (log
      ++ pixelCalls (previousSegment (nextSegment c) % 256 * 64) 64 Color.BLACK
      ++ pixelCalls (nextSegment c % 256 * 64) 64 Color.GREEN
      ++ [(Device.wheel, Cmd.show_)]) p
      = if inSegment (nextSegment c) p then Color.GREEN
        else if inSegment c p then Color.BLACK else pixelBuffer log p := by
  have hn := nextSegment_lt c hc
  have hshow : ∀ buf : Nat → Color,
      [(Device.wheel, Cmd.show_)].foldl writePixel buf = buf := fun _ => rfl
  rw [previous_next c hc, pixelBuffer_append, pixelBuffer_append, pixelBuffer_append, hshow,
    foldl_writePixel_pixelCalls, foldl_writePixel_pixelCalls]
  unfold inSegment
  by_cases h1 : 64 * nextSegment c ≤ p ∧ p ≤ 64 * nextSegment c + 63
  · rw [if_pos h1, if_pos (by omega)]
  · rw [if_neg h1, if_neg (by omega)]
    by_cases h2 : 64 * c ≤ p ∧ p ≤ 64 * c + 63
    · rw [if_pos h2, if_pos (by omega)]
    · rw [if_neg h2, if_neg (by omega)]

/-- In every state of a run the active segment is in 0..7 and the pixel buffer
is either all BLACK (no advance yet) or GREEN exactly on the active segment. -/
theorem run_pixels (cs : List Call) :
    (runCalls (setup powerOn) cs).currentActiveSegment < 8 ∧
    ((∀ p, pixelBuffer (runCalls (setup powerOn) cs).driverLog p = Color.BLACK) ∨
      (∀ p, pixelBuffer (runCalls (setup powerOn) cs).driverLog p
        = if inSegment (runCalls (setup powerOn) cs).currentActiveSegment p
          then Color.GREEN else Color.BLACK)) := by
  apply runCalls_invariant
    (fun s => s.currentActiveSegment < 8 ∧
      ((∀ p, pixelBuffer s.driverLog p = Color.BLACK) ∨
        (∀ p, pixelBuffer s.driverLog p
          = if inSegment s.currentActiveSegment p then Color.GREEN else Color.BLACK)))
  · intro s m pin ms d h
    rcases checkButton_cases3 s m pin ms d with e | ⟨_, e⟩ | ⟨_, e⟩
    · rw [e]; exact h
    · rw [e]; exact h
    · rw [e]
      have hb : pixelBuffer (s.driverLog ++
          [(Device.wheel, Cmd.setMode FxMode.FX_MODE_STATIC),
           (Device.button, Cmd.setMode FxMode.FX_MODE_STATIC),
           (Device.button, Cmd.setColor Color.RED)]) = pixelBuffer s.driverLog := by
        rw [pixelBuffer_append]; rfl
      show _ ∧ ((∀ p, pixelBuffer (s.driverLog ++ _) p = _) ∨
        (∀ p, pixelBuffer (s.driverLog ++ _) p = _))
      rw [hb]
      exact h
  · intro s m h
    rcases handle_cases4 s m with e | ⟨_, _, _, e⟩ | ⟨_, _, _, e⟩ | ⟨_, _, _, e⟩
    · rw [e]; exact h
    · rw [e]
      have hb : pixelBuffer (s.driverLog ++
          [(Device.wheel, Cmd.setSpeed 1000),
           (Device.wheel, Cmd.setColor Color.GREEN),
           (Device.wheel, Cmd.setSegment 0 (s.currentActiveSegment % 256 * 64)
              (s.currentActiveSegment % 256 * 64 + 63) FxMode.FX_MODE_BLINK
              Color.GREEN 100)]) = pixelBuffer s.driverLog := by
        rw [pixelBuffer_append]; rfl
      show _ ∧ ((∀ p, pixelBuffer (s.driverLog ++ _) p = _) ∨
        (∀ p, pixelBuffer (s.driverLog ++ _) p = _))
      rw [hb]
      exact h
    · rw [e]
      have hb : pixelBuffer (s.driverLog ++
          [(Device.wheel, Cmd.resetSegments),
           (Device.wheel,
              Cmd.setSegment 0 0 511 FxMode.FX_MODE_RAINBOW_CYCLE Color.BLACK 5000),
           (Device.button, Cmd.setColor Color.GREEN),
           (Device.button, Cmd.setMode FxMode.FX_MODE_BREATH)]) = pixelBuffer s.driverLog := by
        rw [pixelBuffer_append]; rfl
      show _ ∧ ((∀ p, pixelBuffer (s.driverLog ++ _) p = _) ∨
        (∀ p, pixelBuffer (s.driverLog ++ _) p = _))
      rw [hb]
      exact h
    · rw [e]
      obtain ⟨hc, hp⟩ := h
      refine ⟨nextSegment_lt _ hc, Or.inr ?_⟩
      intro p
      show pixelBuffer (s.driverLog ++ _ ++ _ ++ _) p = _
      rw [pixelBuffer_advance s.driverLog s.currentActiveSegment hc p]
      show _ = if inSegment (nextSegment s.currentActiveSegment) p then Color.GREEN
        else Color.BLACK
      by_cases h1 : inSegment (nextSegment s.currentActiveSegment) p
      · rw [if_pos h1, if_pos h1]
      · rw [if_neg h1, if_neg h1]
        by_cases h2 : inSegment s.currentActiveSegment p
        · rw [if_pos h2]
        · rw [if_neg h2]
          rcases hp with hp | hp
          · exact hp p
          · rw [hp p, if_neg h2]
  · rw [setup_powerOn]
    exact ⟨by decide, Or.inl (fun _ => rfl)⟩

/-! ### The time a spin needs -/

theorem minElapsed_succ (k : Nat) (hk : 1 ≤ k) :
    minElapsed (k + 1) = minElapsed k + (100 + 10 * k) + 1 := by
  cases k with
  | zero => omega
  | succ j => rfl

/-- The arithmetic of one more advance: after `k >= 1` advances, the last one
at `l >= T + minElapsed k`, an advance at `m < T + D` that waited more than
`100 + 10 * k` is advance number `k + 1 <= 46` and comes no earlier than
`T + minElapsed (k + 1)`. -/
theorem advance_bound (T D m l k : Nat) (hD : D ≤ 15000) (hm : m < T + D)
    (hk : k ≤ 46) (hk1 : 1 ≤ k) (hl : T + minElapsed k ≤ l) (hgap : 100 + 10 * k < m - l) :
    k + 1 ≤ 46 ∧ T + minElapsed (k + 1) ≤ m := by
  rw [minElapsed_succ k hk1]
  refine ⟨?_, by omega⟩
  by_contra hc
  have e46 : k = 46 := by omega
  subst e46
  have h46 : minElapsed 46 = 14895 := by decide
  omega

/-- One tick keeps the accounting of a spin that started at `T` with stop time
`T + D`: `k` advances so far, at most 46, the delay `100 + 10 * k`, and the last
advance no earlier than `T + minElapsed k`. -/
theorem spin_tick (T D a0 : Nat) (hD : D ≤ 15000) (hno : T + D < 4294967296)
    (st : State) (t m : Nat) (hT : T ≤ t) (htm : t ≤ m)
    (hstop : st.spinningStopTime = T + D) (ha : a0 ≤ advances st)
    (hk : advances st - a0 ≤ 46)
    (hd : st.spinningDelay = 100 + 10 * (advances st - a0))
    (hl : 1 ≤ advances st - a0 →
      st.lastSegmentSwitch ≤ t ∧ T + minElapsed (advances st - a0) ≤ st.lastSegmentSwitch) :
    (handleWheelOfFortune st m).spinningStopTime = T + D ∧
    a0 ≤ advances (handleWheelOfFortune st m) ∧
    advances (handleWheelOfFortune st m) - a0 ≤ 46 ∧
    (handleWheelOfFortune st m).spinningDelay
      = 100 + 10 * (advances (handleWheelOfFortune st m) - a0) ∧
    (1 ≤ advances (handleWheelOfFortune st m) - a0 →
      (handleWheelOfFortune st m).lastSegmentSwitch ≤ m ∧
      T + minElapsed (advances (handleWheelOfFortune st m) - a0)
        ≤ (handleWheelOfFortune st m).lastSegmentSwitch) := by
  have hstop2 := (handle_timers st m).1
  rcases handle_cases4 st m with e | ⟨_, _, _, e⟩ | ⟨_, _, _, e⟩ | ⟨_, h1, h2, e⟩
  · rw [e]
    exact ⟨hstop, ha, hk, hd, fun h => ⟨Nat.le_trans (hl h).1 htm, (hl h).2⟩⟩
  · have hadv : advances (handleWheelOfFortune st m) = advances st := by
      rw [e]; simp [advances, List.count_append, List.count_cons]
    rw [hadv, hstop2]
    rw [e]
    exact ⟨hstop, ha, hk, hd, fun h => ⟨Nat.le_trans (hl h).1 htm, (hl h).2⟩⟩
  · have hadv : advances (handleWheelOfFortune st m) = advances st := by
      rw [e]; simp [advances, List.count_append, List.count_cons]
    rw [hadv, hstop2]
    rw [e]
    exact ⟨hstop, ha, hk, hd, fun h => ⟨Nat.le_trans (hl h).1 htm, (hl h).2⟩⟩
  · have hadv : advances (handleWheelOfFortune st m) = advances st + 1 := by
      rw [e]; exact advances_advance _ _ _
    have hlast : (handleWheelOfFortune st m).lastSegmentSwitch = m := by rw [e]
    have hdel : (handleWheelOfFortune st m).spinningDelay
        = (st.spinningDelay + 10) % 4294967296 := by rw [e]; rfl
    rw [hadv, hstop2, hlast, hdel, hd]
    rw [hstop] at h1
    rw [hd] at h2
    clear e hadv hlast hdel hstop2
    generalize advances st = a at *
    generalize st.lastSegmentSwitch = l at *
    have hkey : a + 1 - a0 ≤ 46 ∧ T + minElapsed (a + 1 - a0) ≤ m := by
      by_cases hz : a - a0 = 0
      · have e1 : a + 1 - a0 = 1 := by omega
        rw [e1]
        exact ⟨by omega, by show T + 0 ≤ m; omega⟩
      · obtain ⟨hl1, hl2⟩ := hl (by omega)
        have e1 : a + 1 - a0 = (a - a0) + 1 := by omega
        have hsub : subU32 m l = m - l := by unfold subU32 WORD; omega
        rw [hsub] at h2
        rw [e1]
        exact advance_bound T D m l (a - a0) hD h1 hk (by omega) hl2 h2
    refine ⟨hstop, by omega, hkey.1, by omega, fun _ => ⟨Nat.le_refl m, hkey.2⟩⟩

/-- Along a run of ticks under a non-decreasing clock that starts at `t >= T`,
the accounting of `spin_tick` is kept; in particular at most 46 advances. -/
theorem spin_run_bound (T D a0 : Nat) (hD : D ≤ 15000) (hno : T + D < 4294967296)
    (ticks : List Nat) : ∀ (st : State) (t : Nat),
    T ≤ t → List.Chain (fun a b => a ≤ b) t ticks →
    st.spinningStopTime = T + D → a0 ≤ advances st →
    advances st - a0 ≤ 46 →
    st.spinningDelay = 100 + 10 * (advances st - a0) →
    (1 ≤ advances st - a0 →
      st.lastSegmentSwitch ≤ t ∧ T + minElapsed (advances st - a0) ≤ st.lastSegmentSwitch) →
    advances (runTicks st ticks) - a0 ≤ 46 ∧
    (runTicks st ticks).spinningDelay = 100 + 10 * (advances (runTicks st ticks) - a0) := by
  induction ticks with
  | nil => intro st t _ _ _ _ hk hd _; exact ⟨hk, hd⟩
  | cons m ms ih =>
    intro st t hT hch hstop ha hk hd hl
    rw [List.chain_cons] at hch
    obtain ⟨s1, s2, s3, s4, s5⟩ := spin_tick T D a0 hD hno st t m hT hch.1 hstop ha hk hd hl
    exact ih (handleWheelOfFortune st m) m (Nat.le_trans hT hch.1) hch.2 s1 s2 s3 s4 s5

/-! ## Timer ordering -/

/-- C11, the code at a failing input: after `setup`, one call of `checkButton`
with the line LOW at clock value 4294960000 (7296 ms before the counter rolls
over) and a duration draw of 7000 calls `startSpinning`, which leaves
`spinningStopTime = 4294967000` and `cooldownStop = 9704`: immediately after
`startSpinning`, `cooldownStop` is below `spinningStopTime`, and it stays so at
the next tick of `handleWheelOfFortune`.  The tick at which the spin stops
(`now = 4294967000`) then goes straight to `IDLE`: the cooldown is skipped. -/
theorem timer_order_fails_at_rollover :
    (runCalls (setup powerOn)
      [Call.button 4294960000 PinLevel.LOW 4294960000 7000]).spinStarts = 1 ∧
    (runCalls (setup powerOn)
      [Call.button 4294960000 PinLevel.LOW 4294960000 7000]).spinningStopTime = 4294967000 ∧
    (runCalls (setup powerOn)
      [Call.button 4294960000 PinLevel.LOW 4294960000 7000]).cooldownStop = 9704 ∧
    ¬ ((runCalls (setup powerOn)
        [Call.button 4294960000 PinLevel.LOW 4294960000 7000]).spinningStopTime
      ≤ (runCalls (setup powerOn)
        [Call.button 4294960000 PinLevel.LOW 4294960000 7000]).cooldownStop) ∧
    ¬ ((runCalls (setup powerOn)
        [Call.button 4294960000 PinLevel.LOW 4294960000 7000,
         Call.wheel 4294960001]).spinningStopTime
      ≤ (runCalls (setup powerOn)
        [Call.button 4294960000 PinLevel.LOW 4294960000 7000,
         Call.wheel 4294960001]).cooldownStop) ∧
    (runCalls (setup powerOn)
      [Call.button 4294960000 PinLevel.LOW 4294960000 7000,
       Call.wheel 4294967000]).currentMode = DeviceMode.IDLE := by
  decide

/-! ## Index validity -/

/-- C12: in every state reached from power-on by `setup` followed by any
sequence of `checkButton` and `handleWheelOfFortune` calls,
`currentActiveSegment` is in 0..7, every position written through
`setPixelColor` (the writes of `setSegmentToColor`) is in 0..511, and both bounds
of every sub-range passed to `setSegment` (by `setCooldownModes`, and by
`setIdleModes`) are in 0..511. -/
theorem index_validity (cs : List Call) :
    (runCalls (setup powerOn) cs).currentActiveSegment < 8 ∧
    (∀ d i c, (d, Cmd.setPixelColor i c) ∈ (runCalls (setup powerOn) cs).driverLog →
      i < 512) ∧
    (∀ d n first last m c speed,
      (d, Cmd.setSegment n first last m c speed) ∈ (runCalls (setup powerOn) cs).driverLog →
      first < 512 ∧ last < 512) := by
  obtain ⟨h1, h2⟩ := run_inRange cs
  refine ⟨h1, ?_, ?_⟩
  · intro d i c h
    exact h2 _ h
  · intro d n first last m c speed h
    exact h2 _ h

/-! ## The indicator light -/

/-- C13: with the indicator light modelled as the (colour, animation mode) pair
last set through `button.setColor` / `button.setMode`, in every state reached
after `setup` by any sequence of `checkButton` and `handleWheelOfFortune` calls,
mode `IDLE` implies the indicator is (GREEN, breathing) and mode `SPINNING` or
`COOLDOWN` implies it is (RED, static). -/
theorem indicator_mirrors_mode (cs : List Call) :
    ((runCalls (setup powerOn) cs).currentMode = DeviceMode.IDLE →
      indicator (runCalls (setup powerOn) cs).driverLog
        = (some Color.GREEN, some FxMode.FX_MODE_BREATH)) ∧
    ((runCalls (setup powerOn) cs).currentMode = DeviceMode.SPINNING ∨
      (runCalls (setup powerOn) cs).currentMode = DeviceMode.COOLDOWN →
      indicator (runCalls (setup powerOn) cs).driverLog
        = (some Color.RED, some FxMode.FX_MODE_STATIC)) := by
  apply runCalls_invariant
    (fun s =>
      (s.currentMode = DeviceMode.IDLE →
        indicator s.driverLog = (some Color.GREEN, some FxMode.FX_MODE_BREATH)) ∧
      (s.currentMode = DeviceMode.SPINNING ∨ s.currentMode = DeviceMode.COOLDOWN →
        indicator s.driverLog = (some Color.RED, some FxMode.FX_MODE_STATIC)))
  · intro s m pin ms d h
    rcases checkButton_cases3 s m pin ms d with e | ⟨hm, e⟩ | ⟨_, e⟩
    · rw [e]; exact h
    · rw [e]
      refine ⟨fun hi => ?_, fun _ => h.2 (Or.inl hm)⟩
      exact absurd (hm.symm.trans hi) (by decide)
    · rw [e]
      refine ⟨fun hi => by simp at hi, fun _ => ?_⟩
      show indicator (s.driverLog ++ _) = _
      rw [indicator_append]
      rfl
  · intro s m h
    rcases handle_cases4 s m with e | ⟨hm, _, _, e⟩ | ⟨_, _, _, e⟩ | ⟨_, _, _, e⟩
    · rw [e]; exact h
    · rw [e]
      refine ⟨fun hi => by simp at hi, fun _ => ?_⟩
      show indicator (s.driverLog ++ _) = _
      rw [indicator_append]
      exact h.2 (Or.inl hm)
    · rw [e]
      refine ⟨fun _ => ?_, fun hi => ?_⟩
      · show indicator (s.driverLog ++ _) = _
        rw [indicator_append]
        rfl
      · rcases hi with hi | hi <;> simp at hi
    · rw [e]
      have hlog : indicator (s.driverLog
          ++ pixelCalls (previousSegment (nextSegment s.currentActiveSegment) % 256 * 64) 64
              Color.BLACK
          ++ pixelCalls (nextSegment s.currentActiveSegment % 256 * 64) 64 Color.GREEN
          ++ [(Device.wheel, Cmd.show_)]) = indicator s.driverLog := by
        rw [indicator_append, indicator_append, indicator_append, indicator_pixelCalls,
          indicator_pixelCalls]
        rfl
      exact ⟨fun hi => hlog.trans (h.1 hi), fun hi => hlog.trans (h.2 hi)⟩
  · rw [setup_powerOn]
    exact ⟨fun _ => by decide,
      fun hi => by rcases hi with hi | hi <;> exact absurd hi (by decide)⟩

/-! ## No stepping in cooldown -/

/-- C14: in every state with mode `COOLDOWN` reached after `setup` by
`checkButton` / `handleWheelOfFortune` calls, a call of `handleWheelOfFortune`
whose clock value continues a non-decreasing sequence of clock values never
advances the wheel: `currentActiveSegment`, `spinningDelay`, `lastSegmentSwitch`,
every pixel of the buffer and the number of advances are unchanged; the whole
state is unchanged when `now <= cooldownStop`; and when `now > cooldownStop` the
call is the entry into `IDLE`. -/
theorem no_stepping_in_cooldown (cs : List Call) (now : Nat)
    (hclock : List.Pairwise (fun a b => a ≤ b) (clockReads cs ++ [now]))
    (hm : (runCalls (setup powerOn) cs).currentMode = DeviceMode.COOLDOWN) :
    (handleWheelOfFortune (runCalls (setup powerOn) cs) now).currentActiveSegment
      = (runCalls (setup powerOn) cs).currentActiveSegment ∧
    (handleWheelOfFortune (runCalls (setup powerOn) cs) now).spinningDelay
      = (runCalls (setup powerOn) cs).spinningDelay ∧
    (handleWheelOfFortune (runCalls (setup powerOn) cs) now).lastSegmentSwitch
      = (runCalls (setup powerOn) cs).lastSegmentSwitch ∧
    (∀ p, pixelBuffer (handleWheelOfFortune (runCalls (setup powerOn) cs) now).driverLog p
      = pixelBuffer (runCalls (setup powerOn) cs).driverLog p) ∧
    advances (handleWheelOfFortune (runCalls (setup powerOn) cs) now)
      = advances (runCalls (setup powerOn) cs) ∧
    (now ≤ (runCalls (setup powerOn) cs).cooldownStop →
      handleWheelOfFortune (runCalls (setup powerOn) cs) now
        = runCalls (setup powerOn) cs) ∧
    ((runCalls (setup powerOn) cs).cooldownStop < now →
      handleWheelOfFortune (runCalls (setup powerOn) cs) now
        = setIdleModes (runCalls (setup powerOn) cs) ∧
      (handleWheelOfFortune (runCalls (setup powerOn) cs) now).currentMode
        = DeviceMode.IDLE) := by
  have hle : ∀ t ∈ clockReads cs, t ≤ now := by
    intro t ht
    exact (List.pairwise_append.mp hclock).2.2 t ht now (List.mem_singleton.mpr rfl)
  have hstop := cooldown_after_stop cs (setup powerOn) now hle
    (by intro h; exact absurd h (by decide)) hm
  generalize runCalls (setup powerOn) cs = s at *
  by_cases hc : now ≤ s.cooldownStop
  · have e := handle_stopped_cooldown s now (Or.inr hm) hstop hc
    rw [setCooldownModes_same s hm] at e
    rw [e]
    exact ⟨rfl, rfl, rfl, fun _ => rfl, rfl, fun _ => rfl, fun h => absurd hc (by omega)⟩
  · have e := handle_stopped_idle s now (Or.inr hm) hstop (by omega)
    have hi : s.currentMode ≠ DeviceMode.IDLE := by rw [hm]; decide
    refine ⟨?_, ?_, ?_, ?_, ?_, fun h => absurd h hc, fun _ => ⟨e, ?_⟩⟩
    · rw [e, setIdleModes_eq s hi]
    · rw [e, setIdleModes_eq s hi]
    · rw [e, setIdleModes_eq s hi]
    · intro p
      rw [e, setIdleModes_eq s hi]
      show pixelBuffer (s.driverLog ++ _) p = _
      rw [pixelBuffer_append]
      rfl
    · rw [e]; exact advances_setIdleModes s
    · rw [e]; exact setIdleModes_mode s

/-- C14 on a concrete run: a spin started at clock value 0 with draw 7000
enters `COOLDOWN` at the tick at 7000; the tick at 8000 leaves the state as it
is, the tick at 17001 enters `IDLE` with the active segment unchanged. -/
theorem no_stepping_in_cooldown_scenario :
    handleWheelOfFortune
        (runCalls (setup powerOn) [Call.button 0 PinLevel.LOW 0 7000, Call.wheel 7000]) 8000
      = runCalls (setup powerOn) [Call.button 0 PinLevel.LOW 0 7000, Call.wheel 7000] ∧
    (handleWheelOfFortune
        (runCalls (setup powerOn) [Call.button 0 PinLevel.LOW 0 7000, Call.wheel 7000])
        17001).currentMode = DeviceMode.IDLE ∧
    (handleWheelOfFortune
        (runCalls (setup powerOn) [Call.button 0 PinLevel.LOW 0 7000, Call.wheel 7000])
        17001).currentActiveSegment
      = (runCalls (setup powerOn)
          [Call.button 0 PinLevel.LOW 0 7000, Call.wheel 7000]).currentActiveSegment :=
  ⟨(no_stepping_in_cooldown [Call.button 0 PinLevel.LOW 0 7000, Call.wheel 7000] 8000
      (by decide) (by decide)).2.2.2.2.2.1 (by decide),
   ((no_stepping_in_cooldown [Call.button 0 PinLevel.LOW 0 7000, Call.wheel 7000] 17001
      (by decide) (by decide)).2.2.2.2.2.2 (by decide)).2,
   (no_stepping_in_cooldown [Call.button 0 PinLevel.LOW 0 7000, Call.wheel 7000] 17001
      (by decide) (by decide)).1⟩

/-! ## Ticks that do nothing, ticks that advance -/

set_option maxRecDepth 100000 in
/-- Counterexample to C15 as stated: in the state reached after `setup` by
`checkButton` at clock value 4294960000 (line LOW, draw 7000) and one tick at
4294966990, the mode is `SPINNING`, `lastSegmentSwitch = 4294966990` and
`spinningDelay = 110`.  At the tick 410 ms later, at clock value 104 after the
rollover, `now < spinningStopTime` and `now - lastSegmentSwitch <= spinningDelay`
hold (the difference taken as a natural number or as an integer), yet the state
changes: the tick performs a segment advance. -/
theorem tick_advances_across_rollover :
    spinAcrossRollover.currentMode = DeviceMode.SPINNING ∧
    spinAcrossRollover.lastSegmentSwitch = 4294966990 ∧
    spinAcrossRollover.spinningDelay = 110 ∧
    104 < spinAcrossRollover.spinningStopTime ∧
    104 - spinAcrossRollover.lastSegmentSwitch ≤ spinAcrossRollover.spinningDelay ∧
    (104 : Int) - spinAcrossRollover.lastSegmentSwitch ≤ spinAcrossRollover.spinningDelay ∧
    handleWheelOfFortune spinAcrossRollover 104 ≠ spinAcrossRollover ∧
    advances (handleWheelOfFortune spinAcrossRollover 104) = advances spinAcrossRollover + 1 ∧
    (handleWheelOfFortune spinAcrossRollover 104).lastSegmentSwitch = 104 := by
  refine ⟨by decide, by decide, by decide, by decide, by decide, by decide, ?_, by rfl,
    by decide⟩
  intro h
  have h2 : (handleWheelOfFortune spinAcrossRollover 104).lastSegmentSwitch
      = spinAcrossRollover.lastSegmentSwitch := by rw [h]
  exact absurd h2 (by decide)

/-- C15 (amended): `handleWheelOfFortune` leaves the entire state unchanged (the
mode, all timers, `currentActiveSegment`, and the record of driver calls, so no
pixel is written and no frame is pushed) whenever the mode is `INITIAL` or
`IDLE`, and whenever the mode is `SPINNING`, `now < spinningStopTime` and the
elapsed time is at most `spinningDelay`.  In mode `SPINNING` with
`now < spinningStopTime` and the elapsed time above `spinningDelay` it performs
exactly one segment advance (one more `show`, the active segment moved to the
next one) and sets `lastSegmentSwitch = now`.  The elapsed time is the 32-bit
unsigned difference `(now - lastSegmentSwitch) mod 2^32` the code computes,
which is `now - lastSegmentSwitch` whenever `lastSegmentSwitch <= now < 2^32`. -/
theorem tick_noop_or_advance (s : State) (now : Nat) :
    (s.currentMode = DeviceMode.INITIAL ∨ s.currentMode = DeviceMode.IDLE →
      handleWheelOfFortune s now = s) ∧
    (s.currentMode = DeviceMode.SPINNING → now < s.spinningStopTime →
      subU32 now s.lastSegmentSwitch ≤ s.spinningDelay →
      handleWheelOfFortune s now = s) ∧
    (s.currentMode = DeviceMode.SPINNING → now < s.spinningStopTime →
      s.spinningDelay < subU32 now s.lastSegmentSwitch →
      advances (handleWheelOfFortune s now) = advances s + 1 ∧
      (handleWheelOfFortune s now).currentActiveSegment
        = nextSegment s.currentActiveSegment ∧
      (handleWheelOfFortune s now).lastSegmentSwitch = now ∧
      (handleWheelOfFortune s now).currentMode = DeviceMode.SPINNING) ∧
    (s.lastSegmentSwitch ≤ now → now < 4294967296 →
      subU32 now s.lastSegmentSwitch = now - s.lastSegmentSwitch) := by
  refine ⟨?_, ?_, ?_, ?_⟩
  · intro h
    apply handle_inactive
    rcases h with h | h <;> rw [h] <;> exact ⟨by decide, by decide⟩
  · intro hm h1 h2
    exact handle_gate s now (Or.inl hm) h1 h2
  · intro hm h1 h2
    rw [handle_advance s now (Or.inl hm) h1 h2]
    exact ⟨advances_advance _ _ _, rfl, rfl, hm⟩
  · intro h1 h2
    unfold subU32 WORD
    omega

/-- C15 at concrete inputs, in the scenario state (`lastSegmentSwitch = 0`,
`spinningDelay = 100`): the tick at 100 changes nothing, the tick at 101 performs
one advance, to segment 1, and records `lastSegmentSwitch = 101`; a tick in the
idle state after `setup` changes nothing. -/
theorem tick_noop_or_advance_scenario :
    handleWheelOfFortune spin7000 100 = spin7000 ∧
    advances (handleWheelOfFortune spin7000 101) = advances spin7000 + 1 ∧
    (handleWheelOfFortune spin7000 101).currentActiveSegment = 1 ∧
    (handleWheelOfFortune spin7000 101).lastSegmentSwitch = 101 ∧
    handleWheelOfFortune (setup powerOn) 101 = setup powerOn :=
  ⟨(tick_noop_or_advance spin7000 100).2.1 (by decide) (by decide) (by decide),
   ((tick_noop_or_advance spin7000 101).2.2.1 (by decide) (by decide) (by decide)).1,
   ((tick_noop_or_advance spin7000 101).2.2.1 (by decide) (by decide) (by decide)).2.1,
   ((tick_noop_or_advance spin7000 101).2.2.1 (by decide) (by decide) (by decide)).2.2.1,
   (tick_noop_or_advance (setup powerOn) 101).1 (by decide)⟩

/-! ## Exactly one lit segment -/

/-- C16: with the wheel's pixel buffer modelled as the colours written by
`setPixelColor`, all BLACK after `setup`: after a segment-advance step of
`handleWheelOfFortune` in any state reached by a run, the new
`currentActiveSegment` is in 0..7, every position of that segment holds GREEN and
every other position holds BLACK; and the step writes GREEN to the positions of
the new segment, BLACK to those of the vacated segment, and leaves every other
position as it was. -/
theorem one_lit_segment (cs : List Call) (now : Nat)
    (hadv : advances (handleWheelOfFortune (runCalls (setup powerOn) cs) now)
      = advances (runCalls (setup powerOn) cs) + 1) :
    (handleWheelOfFortune (runCalls (setup powerOn) cs) now).currentActiveSegment < 8 ∧
    (handleWheelOfFortune (runCalls (setup powerOn) cs) now).currentActiveSegment
      = ((runCalls (setup powerOn) cs).currentActiveSegment + 1) % 8 ∧
    (∀ p, pixelBuffer (handleWheelOfFortune (runCalls (setup powerOn) cs) now).driverLog p
      = if inSegment
          (handleWheelOfFortune (runCalls (setup powerOn) cs) now).currentActiveSegment p
        then Color.GREEN else Color.BLACK) ∧
    (∀ p, pixelBuffer (handleWheelOfFortune (runCalls (setup powerOn) cs) now).driverLog p
      = if inSegment
          (handleWheelOfFortune (runCalls (setup powerOn) cs) now).currentActiveSegment p
        then Color.GREEN
        else if inSegment (runCalls (setup powerOn) cs).currentActiveSegment p
        then Color.BLACK
        else pixelBuffer (runCalls (setup powerOn) cs).driverLog p) := by
  have hrun := run_pixels (cs ++ [Call.wheel now])
  have happ : runCalls (setup powerOn) (cs ++ [Call.wheel now])
      = handleWheelOfFortune (runCalls (setup powerOn) cs) now :=
    runCalls_append cs [Call.wheel now] (setup powerOn)
  rw [happ] at hrun
  obtain ⟨hc, _⟩ := run_pixels cs
  have e := advance_of_show _ now hadv
  generalize runCalls (setup powerOn) cs = s at *
  have hnext : nextSegment s.currentActiveSegment = (s.currentActiveSegment + 1) % 8 := by
    unfold nextSegment BYTE
    split <;> omega
  refine ⟨hrun.1, ?_, ?_, ?_⟩
  · rw [e]; exact hnext
  · rcases hrun.2 with hb | hg
    · exfalso
      have h1 := hb (64 * nextSegment s.currentActiveSegment)
      rw [e] at h1
      have h2 := pixelBuffer_advance s.driverLog s.currentActiveSegment hc
        (64 * nextSegment s.currentActiveSegment)
      rw [if_pos (by unfold inSegment; omega)] at h2
      have h3 : Color.GREEN = Color.BLACK := h2.symm.trans h1
      exact absurd h3 (by decide)
    · exact hg
  · intro p
    rw [e]
    exact pixelBuffer_advance s.driverLog s.currentActiveSegment hc p

set_option maxRecDepth 100000 in
/-- C16 on a concrete run: the first advance of the first spin (tick at 101)
moves the active segment from 0 to 1 and leaves GREEN exactly on the positions
64..127 of segment 1. -/
theorem one_lit_segment_scenario :
    (handleWheelOfFortune
      (runCalls (setup powerOn) [Call.button 0 PinLevel.LOW 0 7000]) 101).currentActiveSegment
      = 1 ∧
    (∀ p, pixelBuffer (handleWheelOfFortune
        (runCalls (setup powerOn) [Call.button 0 PinLevel.LOW 0 7000]) 101).driverLog p
      = if inSegment 1 p then Color.GREEN else Color.BLACK) := by
  have h := one_lit_segment [Call.button 0 PinLevel.LOW 0 7000] 101 (by rfl)
  have h1 : (handleWheelOfFortune
      (runCalls (setup powerOn) [Call.button 0 PinLevel.LOW 0 7000]) 101).currentActiveSegment
      = 1 := by decide
  refine ⟨h1, ?_⟩
  intro p
  have h2 := h.2.2.1 p
  rw [h1] at h2
  exact h2

/-! ## Mode transitions -/

/-- C17: `setup` leaves the mode `IDLE` from power-on, and no sequence of
`checkButton` / `handleWheelOfFortune` calls after it makes the mode `INITIAL`
again.  From any state, `handleWheelOfFortune` keeps the mode or moves it along
`SPINNING -> COOLDOWN`, `SPINNING -> IDLE` or `COOLDOWN -> IDLE` (so it never
leaves `IDLE` and never enters `SPINNING`), and `checkButton` keeps the mode or
sets it to `SPINNING`. -/
theorem mode_transitions :
    (setup powerOn).currentMode = DeviceMode.IDLE ∧
    (∀ cs, (runCalls (setup powerOn) cs).currentMode ≠ DeviceMode.INITIAL) ∧
    (∀ s now,
      (handleWheelOfFortune s now).currentMode = s.currentMode ∨
      (s.currentMode = DeviceMode.SPINNING ∧
        (handleWheelOfFortune s now).currentMode = DeviceMode.COOLDOWN) ∨
      (s.currentMode = DeviceMode.SPINNING ∧
        (handleWheelOfFortune s now).currentMode = DeviceMode.IDLE) ∨
      (s.currentMode = DeviceMode.COOLDOWN ∧
        (handleWheelOfFortune s now).currentMode = DeviceMode.IDLE)) ∧
    (∀ s now, s.currentMode = DeviceMode.IDLE →
      (handleWheelOfFortune s now).currentMode = DeviceMode.IDLE) ∧
    (∀ s now, (handleWheelOfFortune s now).currentMode = DeviceMode.SPINNING →
      s.currentMode = DeviceMode.SPINNING) ∧
    (∀ s now pin T D,
      (checkButton s now pin T D).currentMode = s.currentMode ∨
      (checkButton s now pin T D).currentMode = DeviceMode.SPINNING) := by
  have hw : ∀ (s : State) (now : Nat),
      (handleWheelOfFortune s now).currentMode = s.currentMode ∨
      (s.currentMode = DeviceMode.SPINNING ∧
        (handleWheelOfFortune s now).currentMode = DeviceMode.COOLDOWN) ∨
      (s.currentMode = DeviceMode.SPINNING ∧
        (handleWheelOfFortune s now).currentMode = DeviceMode.IDLE) ∨
      (s.currentMode = DeviceMode.COOLDOWN ∧
        (handleWheelOfFortune s now).currentMode = DeviceMode.IDLE) := by
    intro s now
    rcases handle_cases4 s now with e | ⟨hm, _, _, e⟩ | ⟨hm, _, _, e⟩ | ⟨_, _, _, e⟩
    · left; rw [e]
    · right; left; rw [e]; exact ⟨hm, rfl⟩
    · rcases hm with hm | hm
      · right; right; left; rw [e]; exact ⟨hm, rfl⟩
      · right; right; right; rw [e]; exact ⟨hm, rfl⟩
    · left; rw [e]
  have hb : ∀ (s : State) (now : Nat) (pin : PinLevel) (T D : Nat),
      (checkButton s now pin T D).currentMode = s.currentMode ∨
      (checkButton s now pin T D).currentMode = DeviceMode.SPINNING := by
    intro s now pin T D
    rcases checkButton_cases3 s now pin T D with e | ⟨_, e⟩ | ⟨_, e⟩
    · left; rw [e]
    · left; rw [e]
    · right; rw [e]
  refine ⟨by decide, ?_, hw, ?_, ?_, hb⟩
  · intro cs
    apply runCalls_invariant (fun s => s.currentMode ≠ DeviceMode.INITIAL)
    · intro s m pin ms d h
      rcases hb s m pin ms d with e | e <;> rw [e]
      · exact h
      · decide
    · intro s m h
      rcases hw s m with e | ⟨_, e⟩ | ⟨_, e⟩ | ⟨_, e⟩ <;> rw [e]
      · exact h
      all_goals decide
    · decide
  · intro s now hi
    rcases hw s now with e | ⟨h, _⟩ | ⟨h, _⟩ | ⟨h, _⟩
    · rw [e]; exact hi
    all_goals exact absurd (h.symm.trans hi) (by decide)
  · intro s now hs
    rcases hw s now with e | ⟨_, e⟩ | ⟨_, e⟩ | ⟨_, e⟩
    · rw [← e]; exact hs
    all_goals exact absurd (e.symm.trans hs) (by decide)

/-! ## What a trigger re-initialises -/

/-- Counterexample to C18 as stated: with the same trigger time 20000 and the
same draw 7000, `startSpinning` from the idle state after `setup` leaves
`currentActiveSegment = 0` and `lastSegmentSwitch = 0`, and from the state after
one segment advance (at clock value 101) it leaves `currentActiveSegment = 1` and
`lastSegmentSwitch = 101`. -/
theorem startSpinning_keeps_segment :
    (startSpinning (setup powerOn) 20000 7000).currentActiveSegment = 0 ∧
    (startSpinning (handleWheelOfFortune spin7000 101) 20000 7000).currentActiveSegment
      = 1 ∧
    (startSpinning (setup powerOn) 20000 7000).lastSegmentSwitch = 0 ∧
    (startSpinning (handleWheelOfFortune spin7000 101) 20000 7000).lastSegmentSwitch
      = 101 ∧
    (startSpinning (setup powerOn) 20000 7000).currentActiveSegment
      ≠ (startSpinning
          (handleWheelOfFortune spin7000 101) 20000 7000).currentActiveSegment ∧
    (startSpinning (setup powerOn) 20000 7000).lastSegmentSwitch
      ≠ (startSpinning (handleWheelOfFortune spin7000 101) 20000 7000).lastSegmentSwitch := by
  decide

/-- C18 (amended): for any two prior states and the same trigger time `T` and
draw `D`, `spinningStopTime`, `cooldownStop` and `spinningDelay` are the same
after `startSpinning` in both runs; `currentActiveSegment` and
`lastSegmentSwitch` are left as each prior state had them. -/
theorem startSpinning_reinitialises (s1 s2 : State) (T D : Nat) :
    (startSpinning s1 T D).spinningStopTime = (startSpinning s2 T D).spinningStopTime ∧
    (startSpinning s1 T D).cooldownStop = (startSpinning s2 T D).cooldownStop ∧
    (startSpinning s1 T D).spinningDelay = (startSpinning s2 T D).spinningDelay ∧
    (startSpinning s1 T D).currentActiveSegment = s1.currentActiveSegment ∧
    (startSpinning s1 T D).lastSegmentSwitch = s1.lastSegmentSwitch := by
  rw [startSpinning_eq, startSpinning_eq, setSpinningModes_frame,
    setSpinningModes_frame { s2 with
      spinStarts := s2.spinStarts + 1
      spinningStopTime := (T + D) % 4294967296
      cooldownStop := ((T + D) % 4294967296 + 10000) % 4294967296
      spinningDelay := 100 }]
  exact ⟨rfl, rfl, rfl, rfl, rfl⟩

/-- The amended C18 at the two prior states of the counterexample: the three
timers agree after the trigger. -/
theorem startSpinning_reinitialises_scenario :
    (startSpinning (setup powerOn) 20000 7000).spinningStopTime
      = (startSpinning (handleWheelOfFortune spin7000 101) 20000 7000).spinningStopTime ∧
    (startSpinning (setup powerOn) 20000 7000).cooldownStop
      = (startSpinning (handleWheelOfFortune spin7000 101) 20000 7000).cooldownStop ∧
    (startSpinning (setup powerOn) 20000 7000).spinningDelay
      = (startSpinning (handleWheelOfFortune spin7000 101) 20000 7000).spinningDelay :=
  ⟨(startSpinning_reinitialises (setup powerOn) (handleWheelOfFortune spin7000 101)
      20000 7000).1,
   (startSpinning_reinitialises (setup powerOn) (handleWheelOfFortune spin7000 101)
      20000 7000).2.1,
   (startSpinning_reinitialises (setup powerOn) (handleWheelOfFortune spin7000 101)
      20000 7000).2.2.1⟩

/-! ## Bounded spin -/

/-- C19: in a run in which `startSpinning` is called once, at clock value `T`
with a duration draw `D <= 15000` and `T + D < 2^32` (no overflow), followed by
any ticks of `handleWheelOfFortune` whose clock values are non-decreasing and not
below `T`, at most 46 segment advances are performed and `spinningDelay`, which
is 100 plus 10 per advance, is at most 560, after any number of ticks. -/
theorem bounded_spin (s : State) (T D : Nat) (ticks : List Nat)
    (hD : D ≤ 15000) (hno : T + D < 4294967296)
    (hclock : List.Pairwise (fun a b => a ≤ b) (T :: ticks)) :
    advanceCount s T D ticks ≤ 46 ∧
    (spinRun s T D ticks).spinningDelay = 100 + 10 * advanceCount s T D ticks ∧
    (spinRun s T D ticks).spinningDelay ≤ 560 := by
  have hstop : (startSpinning s T D).spinningStopTime = T + D := by
    rw [(startSpinning_stop_cooldown s T D).1]
    omega
  have hd : (startSpinning s T D).spinningDelay = 100 := startSpinning_delay s T D
  have h := spin_run_bound T D (advances (startSpinning s T D)) hD hno ticks
    (startSpinning s T D) T (Nat.le_refl T) (List.chain_iff_pairwise.mpr hclock) hstop
    (Nat.le_refl _) (by omega) (by rw [hd]; omega) (by intro h; omega)
  unfold advanceCount spinRun
  refine ⟨h.1, h.2, ?_⟩
  rw [h.2]
  omega

set_option maxRecDepth 100000 in
/-- C19 on the fastest run: a spin started at clock value 1000 with draw 14999,
ticked at the earliest time each advance can happen (`fastestTicks`), performs
exactly 46 advances and ends with `spinningDelay = 560`, so the bound is
reached. -/
theorem bounded_spin_reached :
    advanceCount (setup powerOn) 1000 14999 fastestTicks = 46 ∧
    (spinRun (setup powerOn) 1000 14999 fastestTicks).spinningDelay = 560 := by
  have h := bounded_spin (setup powerOn) 1000 14999 fastestTicks (by decide) (by decide)
    (by decide)
  have hd : (spinRun (setup powerOn) 1000 14999 fastestTicks).spinningDelay = 560 := by
    decide
  refine ⟨?_, hd⟩
  have h2 := h.2.1
  rw [hd] at h2
  generalize advanceCount (setup powerOn) 1000 14999 fastestTicks = k at *
  omega

/-! ## The delay on a long run -/

theorem descendingTicks_succ (n : Nat) :
    descendingTicks (n + 1) = descendingTicks n ++ [4294967294 - n] := by
  unfold descendingTicks
  rw [List.range_succ, List.map_append]
  rfl

/-- On the ticks of `descendingTicks` every tick passes the pacing gate, so a
spin with stop time `2^32 - 1` performs one advance per tick. -/
theorem descending_run (n : Nat) (hn : n ≤ 4294967294) :
    (spinRun (setup powerOn) 4294960000 7295 (descendingTicks n)).currentMode
      = DeviceMode.SPINNING ∧
    (spinRun (setup powerOn) 4294960000 7295 (descendingTicks n)).spinningStopTime
      = 4294967295 ∧
    (spinRun (setup powerOn) 4294960000 7295 (descendingTicks n)).spinningDelay
      = (100 + 10 * n) % 4294967296 ∧
    advances (spinRun (setup powerOn) 4294960000 7295 (descendingTicks n))
      = advances (startSpinning (setup powerOn) 4294960000 7295) + n ∧
    (spinRun (setup powerOn) 4294960000 7295 (descendingTicks n)).lastSegmentSwitch
      = if n = 0 then 0 else 4294967295 - n := by
  induction n with
  | zero =>
    refine ⟨by decide, by decide, by decide, rfl, by decide⟩
  | succ n ih =>
    obtain ⟨hm, hs, hd, ha, hl⟩ := ih (by omega)
    have happ : spinRun (setup powerOn) 4294960000 7295 (descendingTicks (n + 1))
        = handleWheelOfFortune (spinRun (setup powerOn) 4294960000 7295 (descendingTicks n))
            (4294967294 - n) := by
      rw [descendingTicks_succ]
      exact runTicks_append _ _ _
    rw [happ]
    generalize spinRun (setup powerOn) 4294960000 7295 (descendingTicks n) = st at *
    have h1 : 4294967294 - n < st.spinningStopTime := by rw [hs]; omega
    have h2 : st.spinningDelay < subU32 (4294967294 - n) st.lastSegmentSwitch := by
      rw [hd, hl]
      unfold subU32 WORD
      split <;> omega
    rw [handle_advance st (4294967294 - n) (Or.inl hm) h1 h2]
    refine ⟨hm, hs, ?_, ?_, ?_⟩
    · show addU32 st.spinningDelay 10 = _
      rw [hd]
      unfold addU32 WORD
      omega
    · show advances { st with
        lastSegmentSwitch := 4294967294 - n
        spinningDelay := addU32 st.spinningDelay 10
        currentActiveSegment := nextSegment st.currentActiveSegment
        driverLog := st.driverLog
          ++ pixelCalls (previousSegment (nextSegment st.currentActiveSegment) % 256 * 64) 64
              Color.BLACK
          ++ pixelCalls (nextSegment st.currentActiveSegment % 256 * 64) 64 Color.GREEN
          ++ [(Device.wheel, Cmd.show_)] } = _
      unfold advances at *
      rw [advances_advance, ha]
      omega
    · show 4294967294 - n = _
      rw [if_neg (by omega)]
      omega

theorem descending_count (n : Nat) (hn : n ≤ 4294967294) :
    advanceCount (setup powerOn) 4294960000 7295 (descendingTicks n) = n := by
  obtain ⟨_, _, _, ha, _⟩ := descending_run n hn
  unfold advanceCount
  rw [ha]
  exact Nat.add_sub_cancel_left _ _

/-- The bound on the number of advances in C8 is needed: a spin that starts at
clock value 4294960000 with draw 7295 (stop time `2^32 - 1`) and is ticked
429496720 times at the clock values of `descendingTicks` performs 429496720
advances and ends with `spinningDelay = 4`, not `100 + 10 * 429496720`. -/
theorem delay_wraps_on_long_run :
    advanceCount (setup powerOn) 4294960000 7295 (descendingTicks 429496720) = 429496720 ∧
    (spinRun (setup powerOn) 4294960000 7295 (descendingTicks 429496720)).spinningDelay
      = 4 ∧
    4 ≠ 100 + 10 * 429496720 :=
  ⟨descending_count 429496720 (by norm_num),
   (descending_run 429496720 (by norm_num)).2.2.1.trans (by norm_num),
   by norm_num⟩

end WheelOfFortune
